import Mathlib

set_option maxHeartbeats 1000000
set_option maxRecDepth 4000

namespace BE13

/- Embedding of the sbuf ("safer buffer") data model of sbuf.h.
   A byte string is a list of naturals below 256.  The list models exactly
   the readable region that starts at the buf pointer, so bufsize is the
   list length.  pos0 is the forensic path plus offset of byte 0. -/

structure pos0_t where
  path : String
  offset : Nat
deriving DecidableEq

structure sbuf_t where
  pos0 : pos0_t
  buf : List Nat
  pagesize : Nat
deriving DecidableEq

namespace sbuf_t

def bufsize (s : sbuf_t) : Nat := s.buf.length

/- buf[i]; only reached by the readers after the bounds check, so the
   default value is never observed by an in-bounds access. -/
def byteAt (s : sbuf_t) (i : Nat) : Nat := s.buf.getD i 0

/- The range exception raised when a typed read goes past the end. -/
inductive range_exception_t
  | read_past_end
deriving DecidableEq

/- Little-endian unsigned readers, from sbuf.h.  Each C cast to uintN is
   a reduction modulo 2 to the N. -/

def get8u (s : sbuf_t) (i : Nat) : Except range_exception_t Nat :=
  if i + 1 > s.bufsize then .error .read_past_end
  else .ok (s.byteAt i)

def get16u (s : sbuf_t) (i : Nat) : Except range_exception_t Nat :=
  if i + 2 > s.bufsize then .error .read_past_end
  else .ok ((s.byteAt i <<< 0 % 65536) ||| (s.byteAt (i+1) <<< 8 % 65536))

def get32u (s : sbuf_t) (i : Nat) : Except range_exception_t Nat :=
  if i + 4 > s.bufsize then .error .read_past_end
  else .ok ((s.byteAt i <<< 0 % 4294967296) ||| (s.byteAt (i+1) <<< 8 % 4294967296) |||
            (s.byteAt (i+2) <<< 16 % 4294967296) ||| (s.byteAt (i+3) <<< 24 % 4294967296))

def get64u (s : sbuf_t) (i : Nat) : Except range_exception_t Nat :=
  if i + 8 > s.bufsize then .error .read_past_end
  else .ok ((s.byteAt i <<< 0 % 18446744073709551616) |||
            (s.byteAt (i+1) <<< 8 % 18446744073709551616) |||
            (s.byteAt (i+2) <<< 16 % 18446744073709551616) |||
            (s.byteAt (i+3) <<< 24 % 18446744073709551616) |||
            (s.byteAt (i+4) <<< 32 % 18446744073709551616) |||
            (s.byteAt (i+5) <<< 40 % 18446744073709551616) |||
            (s.byteAt (i+6) <<< 48 % 18446744073709551616) |||
            (s.byteAt (i+7) <<< 56 % 18446744073709551616))

/- Big-endian unsigned readers. -/

def get8uBE (s : sbuf_t) (i : Nat) : Except range_exception_t Nat :=
  if i + 1 > s.bufsize then .error .read_past_end
  else .ok (s.byteAt i)

def get16uBE (s : sbuf_t) (i : Nat) : Except range_exception_t Nat :=
  if i + 2 > s.bufsize then .error .read_past_end
  else .ok ((s.byteAt (i+1) <<< 0 % 65536) ||| (s.byteAt i <<< 8 % 65536))

def get32uBE (s : sbuf_t) (i : Nat) : Except range_exception_t Nat :=
  if i + 4 > s.bufsize then .error .read_past_end
  else .ok ((s.byteAt (i+3) <<< 0 % 4294967296) ||| (s.byteAt (i+2) <<< 8 % 4294967296) |||
            (s.byteAt (i+1) <<< 16 % 4294967296) ||| (s.byteAt i <<< 24 % 4294967296))

def get64uBE (s : sbuf_t) (i : Nat) : Except range_exception_t Nat :=
  if i + 8 > s.bufsize then .error .read_past_end
  else .ok ((s.byteAt (i+7) <<< 0 % 18446744073709551616) |||
            (s.byteAt (i+6) <<< 8 % 18446744073709551616) |||
            (s.byteAt (i+5) <<< 16 % 18446744073709551616) |||
            (s.byteAt (i+4) <<< 24 % 18446744073709551616) |||
            (s.byteAt (i+3) <<< 32 % 18446744073709551616) |||
            (s.byteAt (i+2) <<< 40 % 18446744073709551616) |||
            (s.byteAt (i+1) <<< 48 % 18446744073709551616) |||
            (s.byteAt i <<< 56 % 18446744073709551616))

/- Byte-order parameterized readers. -/

inductive byte_order_t
  | BO_LITTLE_ENDIAN
  | BO_BIG_ENDIAN
deriving DecidableEq

def get8u_bo (s : sbuf_t) (i : Nat) (bo : byte_order_t) : Except range_exception_t Nat :=
  match bo with
  | .BO_LITTLE_ENDIAN => s.get8u i
  | .BO_BIG_ENDIAN => s.get8uBE i

def get16u_bo (s : sbuf_t) (i : Nat) (bo : byte_order_t) : Except range_exception_t Nat :=
  match bo with
  | .BO_LITTLE_ENDIAN => s.get16u i
  | .BO_BIG_ENDIAN => s.get16uBE i

def get32u_bo (s : sbuf_t) (i : Nat) (bo : byte_order_t) : Except range_exception_t Nat :=
  match bo with
  | .BO_LITTLE_ENDIAN => s.get32u i
  | .BO_BIG_ENDIAN => s.get32uBE i

def get64u_bo (s : sbuf_t) (i : Nat) (bo : byte_order_t) : Except range_exception_t Nat :=
  match bo with
  | .BO_LITTLE_ENDIAN => s.get64u i
  | .BO_BIG_ENDIAN => s.get64uBE i

/- The C cast from an unsigned value of the given bit width to the signed
   type of the same width. -/
def signed_cast (w : Nat) (v : Nat) : Int :=
  if v < 2 ^ (w - 1) then (v : Int) else (v : Int) - 2 ^ w

/- Signed readers simply call the unsigned readers and the return is cast. -/

def get8i (s : sbuf_t) (i : Nat) : Except range_exception_t Int :=
  (s.get8u i).map (signed_cast 8)

def get16i (s : sbuf_t) (i : Nat) : Except range_exception_t Int :=
  (s.get16u i).map (signed_cast 16)

def get32i (s : sbuf_t) (i : Nat) : Except range_exception_t Int :=
  (s.get32u i).map (signed_cast 32)

def get64i (s : sbuf_t) (i : Nat) : Except range_exception_t Int :=
  (s.get64u i).map (signed_cast 64)

def get8iBE (s : sbuf_t) (i : Nat) : Except range_exception_t Int :=
  (s.get8uBE i).map (signed_cast 8)

def get16iBE (s : sbuf_t) (i : Nat) : Except range_exception_t Int :=
  (s.get16uBE i).map (signed_cast 16)

def get32iBE (s : sbuf_t) (i : Nat) : Except range_exception_t Int :=
  (s.get32uBE i).map (signed_cast 32)

def get64iBE (s : sbuf_t) (i : Nat) : Except range_exception_t Int :=
  (s.get64uBE i).map (signed_cast 64)

def get8i_bo (s : sbuf_t) (i : Nat) (bo : byte_order_t) : Except range_exception_t Int :=
  (s.get8u_bo i bo).map (signed_cast 8)

def get16i_bo (s : sbuf_t) (i : Nat) (bo : byte_order_t) : Except range_exception_t Int :=
  (s.get16u_bo i bo).map (signed_cast 16)

def get32i_bo (s : sbuf_t) (i : Nat) (bo : byte_order_t) : Except range_exception_t Int :=
  (s.get32u_bo i bo).map (signed_cast 32)

def get64i_bo (s : sbuf_t) (i : Nat) (bo : byte_order_t) : Except range_exception_t Int :=
  (s.get64u_bo i bo).map (signed_cast 64)

end sbuf_t

/- Specification-side decoders, written from the words of the claim:
   the little-endian (resp. big-endian) decoding of a byte string. -/

def leDecode : List Nat → Nat
  | [] => 0
  | b :: r => b + 256 * leDecode r

def beDecode (l : List Nat) : Nat := leDecode l.reverse

/- The N/8 bytes of s starting at offset i. -/
def readBytes (s : sbuf_t) (i n : Nat) : List Nat := (s.buf.drop i).take n

theorem byteAt_lt (s : sbuf_t) (i : Nat) (hb : ∀ b ∈ s.buf, b < 256)
    (h : i < s.bufsize) : s.byteAt i < 256 := by
  have hlen : i < s.buf.length := h
  have : s.byteAt i = s.buf[i] := by
    simp [sbuf_t.byteAt, List.getD_eq_getElem?_getD, List.getElem?_eq_getElem hlen]
  rw [this]
  exact hb _ (List.getElem_mem hlen)

theorem readBytes_zero (s : sbuf_t) (i : Nat) : readBytes s i 0 = [] := by
  simp [readBytes]

theorem readBytes_succ (s : sbuf_t) (i n : Nat) (h : i < s.bufsize) :
    readBytes s i (n + 1) = s.byteAt i :: readBytes s (i + 1) n := by
  have hlen : i < s.buf.length := h
  have hd : s.buf.drop i = s.buf[i] :: s.buf.drop (i + 1) := List.drop_eq_getElem_cons hlen
  have hbyte : s.byteAt i = s.buf[i] := by
    simp [sbuf_t.byteAt, List.getD_eq_getElem?_getD, List.getElem?_eq_getElem hlen]
  unfold readBytes
  rw [hd, List.take_succ_cons, hbyte]

/- Merging a low part below 2 to the k with a disjoint high part is addition. -/
theorem lor_add_lo {x a k : Nat} (hx : x < 2 ^ k) : x ||| a * 2 ^ k = x + a * 2 ^ k := by
  rw [Nat.lor_comm, mul_comm]
  rw [← Nat.mul_add_lt_is_or hx a]
  ring

theorem lor_add_lo8 {x a : Nat} (hx : x < 256) :
    x ||| a * 256 = x + a * 256 := by
  have h : (256 : Nat) = 2 ^ 8 := by norm_num
  rw [h] at hx ⊢
  exact lor_add_lo hx

theorem lor_add_lo16 {x a : Nat} (hx : x < 65536) :
    x ||| a * 65536 = x + a * 65536 := by
  have h : (65536 : Nat) = 2 ^ 16 := by norm_num
  rw [h] at hx ⊢
  exact lor_add_lo hx

theorem lor_add_lo24 {x a : Nat} (hx : x < 16777216) :
    x ||| a * 16777216 = x + a * 16777216 := by
  have h : (16777216 : Nat) = 2 ^ 24 := by norm_num
  rw [h] at hx ⊢
  exact lor_add_lo hx

theorem lor_add_lo32 {x a : Nat} (hx : x < 4294967296) :
    x ||| a * 4294967296 = x + a * 4294967296 := by
  have h : (4294967296 : Nat) = 2 ^ 32 := by norm_num
  rw [h] at hx ⊢
  exact lor_add_lo hx

theorem lor_add_lo40 {x a : Nat} (hx : x < 1099511627776) :
    x ||| a * 1099511627776 = x + a * 1099511627776 := by
  have h : (1099511627776 : Nat) = 2 ^ 40 := by norm_num
  rw [h] at hx ⊢
  exact lor_add_lo hx

theorem lor_add_lo48 {x a : Nat} (hx : x < 281474976710656) :
    x ||| a * 281474976710656 = x + a * 281474976710656 := by
  have h : (281474976710656 : Nat) = 2 ^ 48 := by norm_num
  rw [h] at hx ⊢
  exact lor_add_lo hx

theorem lor_add_lo56 {x a : Nat} (hx : x < 72057594037927936) :
    x ||| a * 72057594037927936 = x + a * 72057594037927936 := by
  have h : (72057594037927936 : Nat) = 2 ^ 56 := by norm_num
  rw [h] at hx ⊢
  exact lor_add_lo hx


/- The value assembled by the 16, 32 and 64 bit readers from bytes below 256. -/

theorem word16 (b0 b1 : Nat) (h0 : b0 < 256) (h1 : b1 < 256) :
    (b0 <<< 0 % 65536) ||| (b1 <<< 8 % 65536) = b0 + 256 * b1 := by
  have p0 : (2:Nat) ^ 0 = 1 := by norm_num
  have p8 : (2:Nat) ^ 8 = 256 := by norm_num
  have t0 : b0 <<< 0 % 65536 = b0 := by
    rw [Nat.shiftLeft_eq, p0, Nat.mul_one]
    exact Nat.mod_eq_of_lt (by omega)
  have t1 : b1 <<< 8 % 65536 = b1 * 256 := by
    rw [Nat.shiftLeft_eq, p8]
    exact Nat.mod_eq_of_lt (by omega)
  rw [t0, t1, lor_add_lo8 h0]
  omega

theorem word32 (b0 b1 b2 b3 : Nat) (h0 : b0 < 256) (h1 : b1 < 256) (h2 : b2 < 256)
    (h3 : b3 < 256) :
    (b0 <<< 0 % 4294967296) ||| (b1 <<< 8 % 4294967296) |||
      (b2 <<< 16 % 4294967296) ||| (b3 <<< 24 % 4294967296) =
      b0 + 256 * (b1 + 256 * (b2 + 256 * b3)) := by
  have p0 : (2:Nat) ^ 0 = 1 := by norm_num
  have p8 : (2:Nat) ^ 8 = 256 := by norm_num
  have p16 : (2:Nat) ^ 16 = 65536 := by norm_num
  have p24 : (2:Nat) ^ 24 = 16777216 := by norm_num
  have t0 : b0 <<< 0 % 4294967296 = b0 := by
    rw [Nat.shiftLeft_eq, p0, Nat.mul_one]
    exact Nat.mod_eq_of_lt (by omega)
  have t1 : b1 <<< 8 % 4294967296 = b1 * 256 := by
    rw [Nat.shiftLeft_eq, p8]
    exact Nat.mod_eq_of_lt (by omega)
  have t2 : b2 <<< 16 % 4294967296 = b2 * 65536 := by
    rw [Nat.shiftLeft_eq, p16]
    exact Nat.mod_eq_of_lt (by omega)
  have t3 : b3 <<< 24 % 4294967296 = b3 * 16777216 := by
    rw [Nat.shiftLeft_eq, p24]
    exact Nat.mod_eq_of_lt (by omega)
  rw [t0, t1, t2, t3, lor_add_lo8 h0,
      lor_add_lo16 (show b0 + b1 * 256 < 65536 by omega),
      lor_add_lo24 (show b0 + b1 * 256 + b2 * 65536 < 16777216 by omega)]
  omega

theorem word64 (b0 b1 b2 b3 b4 b5 b6 b7 : Nat) (h0 : b0 < 256) (h1 : b1 < 256)
    (h2 : b2 < 256) (h3 : b3 < 256) (h4 : b4 < 256) (h5 : b5 < 256) (h6 : b6 < 256)
    (h7 : b7 < 256) :
    (b0 <<< 0 % 18446744073709551616) ||| (b1 <<< 8 % 18446744073709551616) |||
      (b2 <<< 16 % 18446744073709551616) ||| (b3 <<< 24 % 18446744073709551616) |||
      (b4 <<< 32 % 18446744073709551616) ||| (b5 <<< 40 % 18446744073709551616) |||
      (b6 <<< 48 % 18446744073709551616) ||| (b7 <<< 56 % 18446744073709551616) =
      b0 + 256 * (b1 + 256 * (b2 + 256 * (b3 + 256 * (b4 + 256 * (b5 + 256 *
        (b6 + 256 * b7)))))) := by
  have p0 : (2:Nat) ^ 0 = 1 := by norm_num
  have p8 : (2:Nat) ^ 8 = 256 := by norm_num
  have p16 : (2:Nat) ^ 16 = 65536 := by norm_num
  have p24 : (2:Nat) ^ 24 = 16777216 := by norm_num
  have p32 : (2:Nat) ^ 32 = 4294967296 := by norm_num
  have p40 : (2:Nat) ^ 40 = 1099511627776 := by norm_num
  have p48 : (2:Nat) ^ 48 = 281474976710656 := by norm_num
  have p56 : (2:Nat) ^ 56 = 72057594037927936 := by norm_num
  have t0 : b0 <<< 0 % 18446744073709551616 = b0 := by
    rw [Nat.shiftLeft_eq, p0, Nat.mul_one]
    exact Nat.mod_eq_of_lt (by omega)
  have t1 : b1 <<< 8 % 18446744073709551616 = b1 * 256 := by
    rw [Nat.shiftLeft_eq, p8]
    exact Nat.mod_eq_of_lt (by omega)
  have t2 : b2 <<< 16 % 18446744073709551616 = b2 * 65536 := by
    rw [Nat.shiftLeft_eq, p16]
    exact Nat.mod_eq_of_lt (by omega)
  have t3 : b3 <<< 24 % 18446744073709551616 = b3 * 16777216 := by
    rw [Nat.shiftLeft_eq, p24]
    exact Nat.mod_eq_of_lt (by omega)
  have t4 : b4 <<< 32 % 18446744073709551616 = b4 * 4294967296 := by
    rw [Nat.shiftLeft_eq, p32]
    exact Nat.mod_eq_of_lt (by omega)
  have t5 : b5 <<< 40 % 18446744073709551616 = b5 * 1099511627776 := by
    rw [Nat.shiftLeft_eq, p40]
    exact Nat.mod_eq_of_lt (by omega)
  have t6 : b6 <<< 48 % 18446744073709551616 = b6 * 281474976710656 := by
    rw [Nat.shiftLeft_eq, p48]
    exact Nat.mod_eq_of_lt (by omega)
  have t7 : b7 <<< 56 % 18446744073709551616 = b7 * 72057594037927936 := by
    rw [Nat.shiftLeft_eq, p56]
    exact Nat.mod_eq_of_lt (by omega)
  rw [t0, t1, t2, t3, t4, t5, t6, t7, lor_add_lo8 h0,
      lor_add_lo16 (show b0 + b1 * 256 < 65536 by omega),
      lor_add_lo24 (show b0 + b1 * 256 + b2 * 65536 < 16777216 by omega),
      lor_add_lo32 (show b0 + b1 * 256 + b2 * 65536 + b3 * 16777216 < 4294967296 by omega),
      lor_add_lo40 (show b0 + b1 * 256 + b2 * 65536 + b3 * 16777216 + b4 * 4294967296 <
        1099511627776 by omega),
      lor_add_lo48 (show b0 + b1 * 256 + b2 * 65536 + b3 * 16777216 + b4 * 4294967296 +
        b5 * 1099511627776 < 281474976710656 by omega),
      lor_add_lo56 (show b0 + b1 * 256 + b2 * 65536 + b3 * 16777216 + b4 * 4294967296 +
        b5 * 1099511627776 + b6 * 281474976710656 < 72057594037927936 by omega)]
  omega

/- In-range and out-of-range behaviour of the base readers. -/

theorem get8u_ok (s : sbuf_t) (i : Nat) (h : i + 1 ≤ s.bufsize) :
    s.get8u i = .ok (leDecode (readBytes s i 1)) := by
  unfold sbuf_t.get8u
  rw [if_neg (by omega), readBytes_succ s i 0 (by omega), readBytes_zero]
  simp [leDecode]

theorem get8uBE_ok (s : sbuf_t) (i : Nat) (h : i + 1 ≤ s.bufsize) :
    s.get8uBE i = .ok (beDecode (readBytes s i 1)) := by
  unfold sbuf_t.get8uBE
  rw [if_neg (by omega), readBytes_succ s i 0 (by omega), readBytes_zero]
  simp [beDecode, leDecode]

theorem get16u_ok (s : sbuf_t) (i : Nat) (hb : ∀ b ∈ s.buf, b < 256)
    (h : i + 2 ≤ s.bufsize) : s.get16u i = .ok (leDecode (readBytes s i 2)) := by
  have h0 := byteAt_lt s i hb (by omega)
  have h1 := byteAt_lt s (i+1) hb (by omega)
  unfold sbuf_t.get16u
  rw [if_neg (by omega), readBytes_succ s i 1 (by omega),
      readBytes_succ s (i+1) 0 (by omega), readBytes_zero]
  simp only [leDecode]
  rw [word16 _ _ h0 h1]
  norm_num

theorem get16uBE_ok (s : sbuf_t) (i : Nat) (hb : ∀ b ∈ s.buf, b < 256)
    (h : i + 2 ≤ s.bufsize) : s.get16uBE i = .ok (beDecode (readBytes s i 2)) := by
  have h0 := byteAt_lt s i hb (by omega)
  have h1 := byteAt_lt s (i+1) hb (by omega)
  unfold sbuf_t.get16uBE
  rw [if_neg (by omega), readBytes_succ s i 1 (by omega),
      readBytes_succ s (i+1) 0 (by omega), readBytes_zero]
  unfold beDecode
  simp only [List.reverse_cons, List.reverse_nil, List.nil_append, List.cons_append,
    List.singleton_append, leDecode]
  rw [word16 _ _ h1 h0]
  norm_num

theorem get32u_ok (s : sbuf_t) (i : Nat) (hb : ∀ b ∈ s.buf, b < 256)
    (h : i + 4 ≤ s.bufsize) : s.get32u i = .ok (leDecode (readBytes s i 4)) := by
  have h0 := byteAt_lt s i hb (by omega)
  have h1 := byteAt_lt s (i+1) hb (by omega)
  have h2 := byteAt_lt s (i+2) hb (by omega)
  have h3 := byteAt_lt s (i+3) hb (by omega)
  unfold sbuf_t.get32u
  rw [if_neg (by omega), readBytes_succ s i 3 (by omega),
      readBytes_succ s (i+1) 2 (by omega), readBytes_succ s (i+1+1) 1 (by omega),
      readBytes_succ s (i+1+1+1) 0 (by omega), readBytes_zero]
  simp only [leDecode]
  have e2 : i + 1 + 1 = i + 2 := by omega
  have e3 : i + 1 + 1 + 1 = i + 3 := by omega
  rw [e2, e3, word32 _ _ _ _ h0 h1 h2 h3]
  norm_num

theorem get32uBE_ok (s : sbuf_t) (i : Nat) (hb : ∀ b ∈ s.buf, b < 256)
    (h : i + 4 ≤ s.bufsize) : s.get32uBE i = .ok (beDecode (readBytes s i 4)) := by
  have h0 := byteAt_lt s i hb (by omega)
  have h1 := byteAt_lt s (i+1) hb (by omega)
  have h2 := byteAt_lt s (i+2) hb (by omega)
  have h3 := byteAt_lt s (i+3) hb (by omega)
  unfold sbuf_t.get32uBE
  rw [if_neg (by omega), readBytes_succ s i 3 (by omega),
      readBytes_succ s (i+1) 2 (by omega), readBytes_succ s (i+1+1) 1 (by omega),
      readBytes_succ s (i+1+1+1) 0 (by omega), readBytes_zero]
  unfold beDecode
  simp only [List.reverse_cons, List.reverse_nil, List.nil_append, List.cons_append,
    List.singleton_append, leDecode]
  have e2 : i + 1 + 1 = i + 2 := by omega
  have e3 : i + 1 + 1 + 1 = i + 3 := by omega
  rw [e2, e3, word32 _ _ _ _ h3 h2 h1 h0]
  norm_num

theorem get64u_ok (s : sbuf_t) (i : Nat) (hb : ∀ b ∈ s.buf, b < 256)
    (h : i + 8 ≤ s.bufsize) : s.get64u i = .ok (leDecode (readBytes s i 8)) := by
  have h0 := byteAt_lt s i hb (by omega)
  have h1 := byteAt_lt s (i+1) hb (by omega)
  have h2 := byteAt_lt s (i+2) hb (by omega)
  have h3 := byteAt_lt s (i+3) hb (by omega)
  have h4 := byteAt_lt s (i+4) hb (by omega)
  have h5 := byteAt_lt s (i+5) hb (by omega)
  have h6 := byteAt_lt s (i+6) hb (by omega)
  have h7 := byteAt_lt s (i+7) hb (by omega)
  unfold sbuf_t.get64u
  rw [if_neg (by omega), readBytes_succ s i 7 (by omega),
      readBytes_succ s (i+1) 6 (by omega), readBytes_succ s (i+1+1) 5 (by omega),
      readBytes_succ s (i+1+1+1) 4 (by omega), readBytes_succ s (i+1+1+1+1) 3 (by omega),
      readBytes_succ s (i+1+1+1+1+1) 2 (by omega),
      readBytes_succ s (i+1+1+1+1+1+1) 1 (by omega),
      readBytes_succ s (i+1+1+1+1+1+1+1) 0 (by omega), readBytes_zero]
  simp only [leDecode]
  have e2 : i + 1 + 1 = i + 2 := by omega
  have e3 : i + 1 + 1 + 1 = i + 3 := by omega
  have e4 : i + 1 + 1 + 1 + 1 = i + 4 := by omega
  have e5 : i + 1 + 1 + 1 + 1 + 1 = i + 5 := by omega
  have e6 : i + 1 + 1 + 1 + 1 + 1 + 1 = i + 6 := by omega
  have e7 : i + 1 + 1 + 1 + 1 + 1 + 1 + 1 = i + 7 := by omega
  rw [e2, e3, e4, e5, e6, e7, word64 _ _ _ _ _ _ _ _ h0 h1 h2 h3 h4 h5 h6 h7]
  norm_num

theorem get64uBE_ok (s : sbuf_t) (i : Nat) (hb : ∀ b ∈ s.buf, b < 256)
    (h : i + 8 ≤ s.bufsize) : s.get64uBE i = .ok (beDecode (readBytes s i 8)) := by
  have h0 := byteAt_lt s i hb (by omega)
  have h1 := byteAt_lt s (i+1) hb (by omega)
  have h2 := byteAt_lt s (i+2) hb (by omega)
  have h3 := byteAt_lt s (i+3) hb (by omega)
  have h4 := byteAt_lt s (i+4) hb (by omega)
  have h5 := byteAt_lt s (i+5) hb (by omega)
  have h6 := byteAt_lt s (i+6) hb (by omega)
  have h7 := byteAt_lt s (i+7) hb (by omega)
  unfold sbuf_t.get64uBE
  rw [if_neg (by omega), readBytes_succ s i 7 (by omega),
      readBytes_succ s (i+1) 6 (by omega), readBytes_succ s (i+1+1) 5 (by omega),
      readBytes_succ s (i+1+1+1) 4 (by omega), readBytes_succ s (i+1+1+1+1) 3 (by omega),
      readBytes_succ s (i+1+1+1+1+1) 2 (by omega),
      readBytes_succ s (i+1+1+1+1+1+1) 1 (by omega),
      readBytes_succ s (i+1+1+1+1+1+1+1) 0 (by omega), readBytes_zero]
  unfold beDecode
  simp only [List.reverse_cons, List.reverse_nil, List.nil_append, List.cons_append,
    List.singleton_append, leDecode]
  have e2 : i + 1 + 1 = i + 2 := by omega
  have e3 : i + 1 + 1 + 1 = i + 3 := by omega
  have e4 : i + 1 + 1 + 1 + 1 = i + 4 := by omega
  have e5 : i + 1 + 1 + 1 + 1 + 1 = i + 5 := by omega
  have e6 : i + 1 + 1 + 1 + 1 + 1 + 1 = i + 6 := by omega
  have e7 : i + 1 + 1 + 1 + 1 + 1 + 1 + 1 = i + 7 := by omega
  rw [e2, e3, e4, e5, e6, e7, word64 _ _ _ _ _ _ _ _ h7 h6 h5 h4 h3 h2 h1 h0]
  norm_num

theorem get8u_err (s : sbuf_t) (i : Nat) (h : i + 1 > s.bufsize) :
    s.get8u i = .error .read_past_end := by
  unfold sbuf_t.get8u
  rw [if_pos h]

theorem get16u_err (s : sbuf_t) (i : Nat) (h : i + 2 > s.bufsize) :
    s.get16u i = .error .read_past_end := by
  unfold sbuf_t.get16u
  rw [if_pos h]

theorem get32u_err (s : sbuf_t) (i : Nat) (h : i + 4 > s.bufsize) :
    s.get32u i = .error .read_past_end := by
  unfold sbuf_t.get32u
  rw [if_pos h]

theorem get64u_err (s : sbuf_t) (i : Nat) (h : i + 8 > s.bufsize) :
    s.get64u i = .error .read_past_end := by
  unfold sbuf_t.get64u
  rw [if_pos h]

theorem get8uBE_err (s : sbuf_t) (i : Nat) (h : i + 1 > s.bufsize) :
    s.get8uBE i = .error .read_past_end := by
  unfold sbuf_t.get8uBE
  rw [if_pos h]

theorem get16uBE_err (s : sbuf_t) (i : Nat) (h : i + 2 > s.bufsize) :
    s.get16uBE i = .error .read_past_end := by
  unfold sbuf_t.get16uBE
  rw [if_pos h]

theorem get32uBE_err (s : sbuf_t) (i : Nat) (h : i + 4 > s.bufsize) :
    s.get32uBE i = .error .read_past_end := by
  unfold sbuf_t.get32uBE
  rw [if_pos h]

theorem get64uBE_err (s : sbuf_t) (i : Nat) (h : i + 8 > s.bufsize) :
    s.get64uBE i = .error .read_past_end := by
  unfold sbuf_t.get64uBE
  rw [if_pos h]


/-- Claim C1: for every sbuf s, every offset i and every width N in 8, 16, 32, 64
bits, the typed readers getNu and getNuBE together with their byte-order
parameterized and signed-by-cast variants return exactly the little-endian
(respectively big-endian) decoding of the N/8 bytes of s starting at offset i
whenever i + N/8 is at most bufsize, and return the read-past-end range error
whenever i + N/8 exceeds bufsize, the comparison taken over unbounded naturals. -/
theorem C1_typed_readers (s : sbuf_t) (i : Nat) (hb : ∀ b ∈ s.buf, b < 256) :
    ((i + 1 ≤ s.bufsize →
        s.get8u i = .ok (leDecode (readBytes s i 1)) ∧
        s.get8uBE i = .ok (beDecode (readBytes s i 1)) ∧
        s.get8u_bo i .BO_LITTLE_ENDIAN = .ok (leDecode (readBytes s i 1)) ∧
        s.get8u_bo i .BO_BIG_ENDIAN = .ok (beDecode (readBytes s i 1)) ∧
        s.get8i i = .ok (sbuf_t.signed_cast 8 (leDecode (readBytes s i 1))) ∧
        s.get8iBE i = .ok (sbuf_t.signed_cast 8 (beDecode (readBytes s i 1))) ∧
        s.get8i_bo i .BO_LITTLE_ENDIAN =
          .ok (sbuf_t.signed_cast 8 (leDecode (readBytes s i 1))) ∧
        s.get8i_bo i .BO_BIG_ENDIAN =
          .ok (sbuf_t.signed_cast 8 (beDecode (readBytes s i 1)))) ∧
      (i + 1 > s.bufsize →
        s.get8u i = .error .read_past_end ∧
        s.get8uBE i = .error .read_past_end ∧
        s.get8u_bo i .BO_LITTLE_ENDIAN = .error .read_past_end ∧
        s.get8u_bo i .BO_BIG_ENDIAN = .error .read_past_end ∧
        s.get8i i = .error .read_past_end ∧
        s.get8iBE i = .error .read_past_end ∧
        s.get8i_bo i .BO_LITTLE_ENDIAN = .error .read_past_end ∧
        s.get8i_bo i .BO_BIG_ENDIAN = .error .read_past_end)) ∧
    ((i + 2 ≤ s.bufsize →
        s.get16u i = .ok (leDecode (readBytes s i 2)) ∧
        s.get16uBE i = .ok (beDecode (readBytes s i 2)) ∧
        s.get16u_bo i .BO_LITTLE_ENDIAN = .ok (leDecode (readBytes s i 2)) ∧
        s.get16u_bo i .BO_BIG_ENDIAN = .ok (beDecode (readBytes s i 2)) ∧
        s.get16i i = .ok (sbuf_t.signed_cast 16 (leDecode (readBytes s i 2))) ∧
        s.get16iBE i = .ok (sbuf_t.signed_cast 16 (beDecode (readBytes s i 2))) ∧
        s.get16i_bo i .BO_LITTLE_ENDIAN =
          .ok (sbuf_t.signed_cast 16 (leDecode (readBytes s i 2))) ∧
        s.get16i_bo i .BO_BIG_ENDIAN =
          .ok (sbuf_t.signed_cast 16 (beDecode (readBytes s i 2)))) ∧
      (i + 2 > s.bufsize →
        s.get16u i = .error .read_past_end ∧
        s.get16uBE i = .error .read_past_end ∧
        s.get16u_bo i .BO_LITTLE_ENDIAN = .error .read_past_end ∧
        s.get16u_bo i .BO_BIG_ENDIAN = .error .read_past_end ∧
        s.get16i i = .error .read_past_end ∧
        s.get16iBE i = .error .read_past_end ∧
        s.get16i_bo i .BO_LITTLE_ENDIAN = .error .read_past_end ∧
        s.get16i_bo i .BO_BIG_ENDIAN = .error .read_past_end)) ∧
    ((i + 4 ≤ s.bufsize →
        s.get32u i = .ok (leDecode (readBytes s i 4)) ∧
        s.get32uBE i = .ok (beDecode (readBytes s i 4)) ∧
        s.get32u_bo i .BO_LITTLE_ENDIAN = .ok (leDecode (readBytes s i 4)) ∧
        s.get32u_bo i .BO_BIG_ENDIAN = .ok (beDecode (readBytes s i 4)) ∧
        s.get32i i = .ok (sbuf_t.signed_cast 32 (leDecode (readBytes s i 4))) ∧
        s.get32iBE i = .ok (sbuf_t.signed_cast 32 (beDecode (readBytes s i 4))) ∧
        s.get32i_bo i .BO_LITTLE_ENDIAN =
          .ok (sbuf_t.signed_cast 32 (leDecode (readBytes s i 4))) ∧
        s.get32i_bo i .BO_BIG_ENDIAN =
          .ok (sbuf_t.signed_cast 32 (beDecode (readBytes s i 4)))) ∧
      (i + 4 > s.bufsize →
        s.get32u i = .error .read_past_end ∧
        s.get32uBE i = .error .read_past_end ∧
        s.get32u_bo i .BO_LITTLE_ENDIAN = .error .read_past_end ∧
        s.get32u_bo i .BO_BIG_ENDIAN = .error .read_past_end ∧
        s.get32i i = .error .read_past_end ∧
        s.get32iBE i = .error .read_past_end ∧
        s.get32i_bo i .BO_LITTLE_ENDIAN = .error .read_past_end ∧
        s.get32i_bo i .BO_BIG_ENDIAN = .error .read_past_end)) ∧
    ((i + 8 ≤ s.bufsize →
        s.get64u i = .ok (leDecode (readBytes s i 8)) ∧
        s.get64uBE i = .ok (beDecode (readBytes s i 8)) ∧
        s.get64u_bo i .BO_LITTLE_ENDIAN = .ok (leDecode (readBytes s i 8)) ∧
        s.get64u_bo i .BO_BIG_ENDIAN = .ok (beDecode (readBytes s i 8)) ∧
        s.get64i i = .ok (sbuf_t.signed_cast 64 (leDecode (readBytes s i 8))) ∧
        s.get64iBE i = .ok (sbuf_t.signed_cast 64 (beDecode (readBytes s i 8))) ∧
        s.get64i_bo i .BO_LITTLE_ENDIAN =
          .ok (sbuf_t.signed_cast 64 (leDecode (readBytes s i 8))) ∧
        s.get64i_bo i .BO_BIG_ENDIAN =
          .ok (sbuf_t.signed_cast 64 (beDecode (readBytes s i 8)))) ∧
      (i + 8 > s.bufsize →
        s.get64u i = .error .read_past_end ∧
        s.get64uBE i = .error .read_past_end ∧
        s.get64u_bo i .BO_LITTLE_ENDIAN = .error .read_past_end ∧
        s.get64u_bo i .BO_BIG_ENDIAN = .error .read_past_end ∧
        s.get64i i = .error .read_past_end ∧
        s.get64iBE i = .error .read_past_end ∧
        s.get64i_bo i .BO_LITTLE_ENDIAN = .error .read_past_end ∧
        s.get64i_bo i .BO_BIG_ENDIAN = .error .read_past_end)) := by
  refine ⟨⟨fun h8a => ?_, fun h8b => ?_⟩, ⟨fun h16a => ?_, fun h16b => ?_⟩,
    ⟨fun h32a => ?_, fun h32b => ?_⟩, ⟨fun h64a => ?_, fun h64b => ?_⟩⟩
  · have hu := get8u_ok s i h8a
    have he := get8uBE_ok s i h8a
    exact ⟨hu, he, by simp [sbuf_t.get8u_bo, hu], by simp [sbuf_t.get8u_bo, he],
      by simp [sbuf_t.get8i, hu, Except.map], by simp [sbuf_t.get8iBE, he, Except.map],
      by simp [sbuf_t.get8i_bo, sbuf_t.get8u_bo, hu, Except.map],
      by simp [sbuf_t.get8i_bo, sbuf_t.get8u_bo, he, Except.map]⟩
  · have hu := get8u_err s i h8b
    have he := get8uBE_err s i h8b
    exact ⟨hu, he, by simp [sbuf_t.get8u_bo, hu], by simp [sbuf_t.get8u_bo, he],
      by simp [sbuf_t.get8i, hu, Except.map], by simp [sbuf_t.get8iBE, he, Except.map],
      by simp [sbuf_t.get8i_bo, sbuf_t.get8u_bo, hu, Except.map],
      by simp [sbuf_t.get8i_bo, sbuf_t.get8u_bo, he, Except.map]⟩
  · have hu := get16u_ok s i hb h16a
    have he := get16uBE_ok s i hb h16a
    exact ⟨hu, he, by simp [sbuf_t.get16u_bo, hu], by simp [sbuf_t.get16u_bo, he],
      by simp [sbuf_t.get16i, hu, Except.map], by simp [sbuf_t.get16iBE, he, Except.map],
      by simp [sbuf_t.get16i_bo, sbuf_t.get16u_bo, hu, Except.map],
      by simp [sbuf_t.get16i_bo, sbuf_t.get16u_bo, he, Except.map]⟩
  · have hu := get16u_err s i h16b
    have he := get16uBE_err s i h16b
    exact ⟨hu, he, by simp [sbuf_t.get16u_bo, hu], by simp [sbuf_t.get16u_bo, he],
      by simp [sbuf_t.get16i, hu, Except.map], by simp [sbuf_t.get16iBE, he, Except.map],
      by simp [sbuf_t.get16i_bo, sbuf_t.get16u_bo, hu, Except.map],
      by simp [sbuf_t.get16i_bo, sbuf_t.get16u_bo, he, Except.map]⟩
  · have hu := get32u_ok s i hb h32a
    have he := get32uBE_ok s i hb h32a
    exact ⟨hu, he, by simp [sbuf_t.get32u_bo, hu], by simp [sbuf_t.get32u_bo, he],
      by simp [sbuf_t.get32i, hu, Except.map], by simp [sbuf_t.get32iBE, he, Except.map],
      by simp [sbuf_t.get32i_bo, sbuf_t.get32u_bo, hu, Except.map],
      by simp [sbuf_t.get32i_bo, sbuf_t.get32u_bo, he, Except.map]⟩
  · have hu := get32u_err s i h32b
    have he := get32uBE_err s i h32b
    exact ⟨hu, he, by simp [sbuf_t.get32u_bo, hu], by simp [sbuf_t.get32u_bo, he],
      by simp [sbuf_t.get32i, hu, Except.map], by simp [sbuf_t.get32iBE, he, Except.map],
      by simp [sbuf_t.get32i_bo, sbuf_t.get32u_bo, hu, Except.map],
      by simp [sbuf_t.get32i_bo, sbuf_t.get32u_bo, he, Except.map]⟩
  · have hu := get64u_ok s i hb h64a
    have he := get64uBE_ok s i hb h64a
    exact ⟨hu, he, by simp [sbuf_t.get64u_bo, hu], by simp [sbuf_t.get64u_bo, he],
      by simp [sbuf_t.get64i, hu, Except.map], by simp [sbuf_t.get64iBE, he, Except.map],
      by simp [sbuf_t.get64i_bo, sbuf_t.get64u_bo, hu, Except.map],
      by simp [sbuf_t.get64i_bo, sbuf_t.get64u_bo, he, Except.map]⟩
  · have hu := get64u_err s i h64b
    have he := get64uBE_err s i h64b
    exact ⟨hu, he, by simp [sbuf_t.get64u_bo, hu], by simp [sbuf_t.get64u_bo, he],
      by simp [sbuf_t.get64i, hu, Except.map], by simp [sbuf_t.get64iBE, he, Except.map],
      by simp [sbuf_t.get64i_bo, sbuf_t.get64u_bo, hu, Except.map],
      by simp [sbuf_t.get64i_bo, sbuf_t.get64u_bo, he, Except.map]⟩

/-- Witness for claim C1 at a concrete five byte sbuf: an in-range 32 bit read
decodes little-endian and an out-of-range 64 bit read returns the range error. -/
theorem C1_typed_readers_witness :
    sbuf_t.get32u ⟨⟨"", 0⟩, [1, 2, 3, 4, 251], 5⟩ 1 =
      .ok (leDecode (readBytes ⟨⟨"", 0⟩, [1, 2, 3, 4, 251], 5⟩ 1 4)) ∧
    sbuf_t.get64u ⟨⟨"", 0⟩, [1, 2, 3, 4, 251], 5⟩ 0 = .error .read_past_end := by
  have h1 := C1_typed_readers ⟨⟨"", 0⟩, [1, 2, 3, 4, 251], 5⟩ 1 (by decide)
  have h0 := C1_typed_readers ⟨⟨"", 0⟩, [1, 2, 3, 4, 251], 5⟩ 0 (by decide)
  exact ⟨(h1.2.2.1.1 (by decide)).1, (h0.2.2.2.2 (by decide)).1⟩


/- Child tracking, from the child allocators and the destructor in sbuf.h.
   Each child constructor stores the root of the parent chain in the parent
   field, so the destructor of every child decrements the root counter.
   The counter is a C int wrapped in std atomic, modelled as Int. -/

inductive child_ctor
  | from_pos0
  | from_off_len
  | from_off
deriving DecidableEq

def add_child (children : Int) : Int := children + 1

def del_child (children : Int) : Int := children - 1

/- The assertion inside del_child: after the decrement, children >= 0. -/
def del_child_assertion (children : Int) : Prop := children - 1 ≥ 0

/- Effect of one child construction on the root children counter.  The pos0
   form and the off/len form call add_child on the parent; the off form, the
   one used by the plus operator, has an empty constructor body and does not. -/
def construct_child (c : child_ctor) (children : Int) : Int :=
  match c with
  | .from_pos0 => add_child children
  | .from_off_len => add_child children
  | .from_off => children

/- Effect of destroying a child: the destructor calls del_child on the parent,
   which is non-null for all three child forms. -/
def destroy_child (children : Int) : Int := del_child children

inductive child_event
  | construct (c : child_ctor)
  | destroy
deriving DecidableEq

/- Run a construct and destroy trace against the root children counter. -/
def run_children : List child_event → Int → Int
  | [], n => n
  | .construct c :: r, n => run_children r (construct_child c n)
  | .destroy :: r, n => run_children r (destroy_child n)

/- Scanner set model, from scanner_set.cpp and scanner_set.h.  Scanners are
   identified by their names; scanner_info_db keeps registration order. -/

inductive phase_t
  | PHASE_INIT
  | PHASE_ENABLED
  | PHASE_SCAN
  | PHASE_SHUTDOWN
deriving DecidableEq

structure scanner_flags_t where
  default_enabled : Bool
  no_all : Bool
  scan_ngram_buffer : Bool
  depth0_only : Bool
  scan_seen_before : Bool
deriving DecidableEq

structure feature_recorder_def_name where
  name : String
deriving DecidableEq

structure histogram_def_t where
  feature : String
  suffix : String
deriving DecidableEq

structure scanner_info where
  name : String
  scanner_flags : scanner_flags_t
  feature_defs : List feature_recorder_def_name
  histogram_defs : List histogram_def_t
deriving DecidableEq

inductive command_t
  | DISABLE
  | ENABLE
deriving DecidableEq

structure scanner_command where
  scannerName : String
  command : command_t
deriving DecidableEq

/- Modelled from the spec: the distinguished ALL_SCANNERS token of
   scanner_config, whose definition file is not in the sources at hand. -/
def ALL_SCANNERS : String := "all"

/- The enabled_scanners member is a std set; only membership matters. -/
def set_insert (l : List String) (x : String) : List String :=
  if x ∈ l then l else l ++ [x]

def set_erase (l : List String) (x : String) : List String :=
  l.filter (fun y => y ≠ x)

structure scanner_set_state where
  current_phase : phase_t
  scanner_info_db : List scanner_info
  enabled_scanners : List String
  frm : List String
  histogram_recs : List (String × histogram_def_t)
  scanner_commands : List scanner_command
  no_alert : Bool
  record_files : Bool
  record_sql : Bool
  max_depth : Nat
  dup_data_alerts : Bool
deriving DecidableEq

/- add_scanner, from scanner_set.cpp: reject a duplicate registration, ask the
   scanner for its info, index it, and enable it when default_enabled.  There
   is no check of current_phase in the source. -/
def add_scanner (st : scanner_set_state) (info : scanner_info) :
    Except String scanner_set_state :=
  if info.name ∈ st.scanner_info_db.map scanner_info.name then
    .error "scanner already added"
  else
    .ok { st with
          scanner_info_db := st.scanner_info_db ++ [info],
          enabled_scanners :=
            if info.scanner_flags.default_enabled then
              set_insert st.enabled_scanners info.name
            else st.enabled_scanners }

/- One enable or disable command, from apply_scanner_commands.  A named
   command that matches no scanner raises NoSuchScanner. -/
def apply_command (db : List scanner_info) (enabled : List String)
    (cmd : scanner_command) : Except String (List String) :=
  if cmd.scannerName = ALL_SCANNERS then
    .ok (db.foldl (fun en info =>
      if info.scanner_flags.no_all then en
      else
        match cmd.command with
        | .ENABLE => set_insert en info.name
        | .DISABLE => set_erase en info.name) enabled)
  else
    match db.find? (fun info => info.name = cmd.scannerName) with
    | none => .error ("no such scanner: " ++ cmd.scannerName)
    | some info =>
        match cmd.command with
        | .ENABLE => .ok (set_insert enabled info.name)
        | .DISABLE => .ok (set_erase enabled info.name)

/- create_feature_recorder, from feature_recorder_set.cpp: exactly one of the
   file and SQL backends must be selected, and a recorder that already exists
   raises FeatureRecorderAlreadyExists. -/
def create_feature_recorder (record_files record_sql : Bool) (frm : List String)
    (name : String) : Except String (List String) :=
  if record_files ∧ record_sql then
    .error "currently can only record to files or SQL, not both"
  else if ¬record_files ∧ ¬record_sql then
    .error "Must record to either files or SQL"
  else if name ∈ frm then
    .error ("feature recorder already exists: " ++ name)
  else .ok (frm ++ [name])

def ALERT_RECORDER_NAME : String := "alerts"

/- apply_scanner_commands, from scanner_set.cpp: check the phase, fold the
   queued commands over the enabled set, create the alert recorder unless
   suppressed, then walk every entry of scanner_info_db creating its feature
   recorders and histograms, and advance to PHASE_ENABLED. -/
def apply_scanner_commands (st : scanner_set_state) :
    Except String scanner_set_state :=
  if st.current_phase ≠ .PHASE_INIT then
    .error "apply_scanner_commands can only be run in scanner_params PHASE_INIT"
  else
    match st.scanner_commands.foldlM
        (fun en cmd => apply_command st.scanner_info_db en cmd) st.enabled_scanners with
    | .error e => .error e
    | .ok enabled =>
      match (if ¬st.no_alert then
              create_feature_recorder st.record_files st.record_sql st.frm
                ALERT_RECORDER_NAME
             else .ok st.frm) with
      | .error e => .error e
      | .ok frm0 =>
        match st.scanner_info_db.foldlM (fun acc info => do
            let frmA ← info.feature_defs.foldlM
              (fun (f : List String) (fd : feature_recorder_def_name) =>
                create_feature_recorder st.record_files st.record_sql f fd.name)
              acc.1
            let hrA ← info.histogram_defs.foldlM
              (fun (h : List (String × histogram_def_t)) (hd : histogram_def_t) =>
                if hd.feature ∈ frmA then pure (h ++ [(hd.feature, hd)])
                else throw ("No such feature recorder: " ++ hd.feature)) acc.2
            pure (frmA, hrA)) (frm0, st.histogram_recs) with
        | .error e => .error e
        | .ok folded =>
            .ok { st with
                  current_phase := .PHASE_ENABLED,
                  enabled_scanners := enabled,
                  frm := folded.1,
                  histogram_recs := folded.2 }

/- phase_scan, from scanner_set.cpp. -/
def phase_scan (st : scanner_set_state) : Except String scanner_set_state :=
  if st.current_phase ≠ .PHASE_ENABLED then
    .error "start_scan can only be run in scanner_params PHASE_ENABLED"
  else .ok { st with current_phase := .PHASE_SCAN }

/- shutdown, from scanner_set.cpp; the scanner messages and histogram
   generation have no effect on the state modelled here. -/
def shutdown (st : scanner_set_state) : Except String scanner_set_state :=
  if st.current_phase ≠ .PHASE_SCAN then
    .error "shutdown can only be called in scanner_params PHASE_SCAN"
  else .ok { st with current_phase := .PHASE_SHUTDOWN }

/- Dispatch, from process_sbuf in scanner_set.cpp.  A scanner invocation is
   abstracted by its observable outcome on this sbuf: normal return, a thrown
   std exception with its what string, or a thrown non-std value. -/

inductive exc_t
  | std_exc (what : String)
  | unknown_exc
deriving DecidableEq

/- Modelled from the spec: the MAX_DEPTH_REACHED alert constants of
   feature_recorder, whose definition file is not in the sources at hand. -/
def MAX_DEPTH_REACHED_ERROR_FEATURE : String := "MAX DEPTH REACHED"

def MAX_DEPTH_REACHED_ERROR_CONTEXT : String := "MAX DEPTH REACHED CONTEXT"

/- The alert recorded by the catch blocks of the dispatch loop. -/
def alert_of_exc (e : exc_t) (name : String) : String × String :=
  match e with
  | .std_exc w => ("scanner=" ++ name, "<exception>" ++ w ++ "</exception>")
  | .unknown_exc => ("scanner=" ++ name, "<unknown_exception></unknown_exception>")

/- The continue chain of the dispatch loop: a scanner is skipped when it is
   not enabled, when the buffer is an ngram buffer it does not want, when the
   scan is not at depth 0 and the scanner runs at depth 0 only, or when the
   buffer was seen before and the scanner does not rescan. -/
def scanner_skipped (enabled : List String) (info : scanner_info)
    (depth ngram_size : Nat) (seen_before : Bool) : Bool :=
  if info.name ∉ enabled then true
  else if ngram_size > 0 ∧ info.scanner_flags.scan_ngram_buffer = false then true
  else if depth > 0 ∧ info.scanner_flags.depth0_only = true then true
  else if seen_before = true ∧ info.scanner_flags.scan_seen_before = false then true
  else false

/- The loop over scanner_info_db: skip per the continue chain, otherwise
   invoke the scanner, catching any exception as an alert recorder entry. -/
def dispatch_loop (enabled : List String) (behavior : String → Option exc_t)
    (depth ngram_size : Nat) (seen_before : Bool) :
    List scanner_info → List String × List (String × String)
  | [] => ([], [])
  | info :: rest =>
      if scanner_skipped enabled info depth ngram_size seen_before then
        dispatch_loop enabled behavior depth ngram_size seen_before rest
      else
        match behavior info.name with
        | none =>
            (info.name :: (dispatch_loop enabled behavior depth ngram_size seen_before rest).1,
             (dispatch_loop enabled behavior depth ngram_size seen_before rest).2)
        | some e =>
            (info.name :: (dispatch_loop enabled behavior depth ngram_size seen_before rest).1,
             alert_of_exc e info.name ::
               (dispatch_loop enabled behavior depth ngram_size seen_before rest).2)

/- process_sbuf, from scanner_set.cpp.  The values that the missing sbuf.cpp
   computes from the buffer (depth, the ngram size, the seen-before test and
   the hash) enter as parameters.  The result is the list of invoked scanner
   names in order and the list of feature/context pairs written to the alert
   recorder. -/
def process_sbuf (st : scanner_set_state) (behavior : String → Option exc_t)
    (depth ngram_size : Nat) (seen_before : Bool) (hashv : String) (bufsize : Nat) :
    Except String (List String × List (String × String)) :=
  if st.current_phase ≠ .PHASE_SCAN then
    .error "process_sbuf can only be run in scanner_params PHASE_SCAN"
  else if depth ≥ st.max_depth then
    .ok ([], [(MAX_DEPTH_REACHED_ERROR_FEATURE, MAX_DEPTH_REACHED_ERROR_CONTEXT)])
  else
    .ok ((dispatch_loop st.enabled_scanners behavior depth ngram_size seen_before
            st.scanner_info_db).1,
         (if seen_before = true ∧ st.dup_data_alerts = true then
            [("DUP SBUF " ++ hashv, "<buflen>" ++ toString bufsize ++ "</buflen>")]
          else []) ++
          (dispatch_loop st.enabled_scanners behavior depth ngram_size seen_before
            st.scanner_info_db).2)

/- Helper lemmas about the dispatch loop. -/

theorem dispatch_loop_subset (enabled : List String) (behavior : String → Option exc_t)
    (depth ngram_size : Nat) (seen_before : Bool) :
    ∀ (db : List scanner_info) (x : String),
      x ∈ (dispatch_loop enabled behavior depth ngram_size seen_before db).1 →
      x ∈ db.map scanner_info.name := by
  intro db
  induction db with
  | nil => intro x hx; simp [dispatch_loop] at hx
  | cons info rest ih =>
      intro x hx
      simp only [dispatch_loop] at hx
      by_cases hsk : scanner_skipped enabled info depth ngram_size seen_before
      · rw [if_pos hsk] at hx
        simp only [List.map_cons, List.mem_cons]
        exact .inr (ih x hx)
      · rw [if_neg hsk] at hx
        cases hbeh : behavior info.name with
        | none =>
            rw [hbeh] at hx
            simp only [List.mem_cons] at hx
            rcases hx with h | h
            · simp [h]
            · simp only [List.map_cons, List.mem_cons]
              exact .inr (ih x h)
        | some e =>
            rw [hbeh] at hx
            simp only [List.mem_cons] at hx
            rcases hx with h | h
            · simp [h]
            · simp only [List.map_cons, List.mem_cons]
              exact .inr (ih x h)

theorem dispatch_loop_mem (enabled : List String) (behavior : String → Option exc_t)
    (depth ngram_size : Nat) (seen_before : Bool) :
    ∀ (db : List scanner_info), (db.map scanner_info.name).Nodup →
      ∀ info ∈ db,
        (info.name ∈ (dispatch_loop enabled behavior depth ngram_size seen_before db).1 ↔
          scanner_skipped enabled info depth ngram_size seen_before = false) := by
  intro db
  induction db with
  | nil => intro _ info hin; cases hin
  | cons hd tl ih =>
      intro hnd info hin
      have hnd1 : hd.name ∉ tl.map scanner_info.name := by
        simp only [List.map_cons, List.nodup_cons] at hnd
        exact hnd.1
      have hnd2 : (tl.map scanner_info.name).Nodup := by
        simp only [List.map_cons, List.nodup_cons] at hnd
        exact hnd.2
      rcases List.mem_cons.mp hin with heq | hmem
      · subst heq
        simp only [dispatch_loop]
        by_cases hsk : scanner_skipped enabled info depth ngram_size seen_before
        · rw [if_pos hsk]
          constructor
          · intro hmem1
            exact absurd (dispatch_loop_subset enabled behavior depth ngram_size
              seen_before tl info.name hmem1) hnd1
          · intro hfalse
            rw [hfalse] at hsk
            cases hsk
        · rw [if_neg hsk]
          constructor
          · intro _
            exact Bool.eq_false_iff.mpr hsk
          · intro _
            cases hbeh : behavior info.name <;> simp [hbeh]
      · have hne : info.name ≠ hd.name := by
          intro he
          exact hnd1 (he ▸ List.mem_map_of_mem scanner_info.name hmem)
        simp only [dispatch_loop]
        by_cases hsk : scanner_skipped enabled hd depth ngram_size seen_before
        · rw [if_pos hsk]
          exact ih hnd2 info hmem
        · rw [if_neg hsk]
          cases hbeh : behavior hd.name with
          | none =>
              simp only [List.mem_cons, hne, false_or]
              exact ih hnd2 info hmem
          | some e =>
              simp only [List.mem_cons, hne, false_or]
              exact ih hnd2 info hmem

theorem scanner_skipped_iff (enabled : List String) (info : scanner_info)
    (depth ngram_size : Nat) (seen_before : Bool) :
    scanner_skipped enabled info depth ngram_size seen_before = false ↔
      info.name ∈ enabled ∧
      ¬(ngram_size > 0 ∧ info.scanner_flags.scan_ngram_buffer = false) ∧
      ¬(depth > 0 ∧ info.scanner_flags.depth0_only = true) ∧
      ¬(seen_before = true ∧ info.scanner_flags.scan_seen_before = false) := by
  unfold scanner_skipped
  by_cases h1 : info.name ∉ enabled
  · rw [if_pos h1]
    simp only [Bool.true_eq_false, false_iff]
    intro hc
    exact h1 hc.1
  · rw [if_neg h1]
    by_cases h2 : ngram_size > 0 ∧ info.scanner_flags.scan_ngram_buffer = false
    · rw [if_pos h2]
      simp only [Bool.true_eq_false, false_iff]
      intro hc
      exact hc.2.1 h2
    · rw [if_neg h2]
      by_cases h3 : depth > 0 ∧ info.scanner_flags.depth0_only = true
      · rw [if_pos h3]
        simp only [Bool.true_eq_false, false_iff]
        intro hc
        exact hc.2.2.1 h3
      · rw [if_neg h3]
        by_cases h4 : seen_before = true ∧ info.scanner_flags.scan_seen_before = false
        · rw [if_pos h4]
          simp only [Bool.true_eq_false, false_iff]
          intro hc
          exact hc.2.2.2 h4
        · rw [if_neg h4]
          simp only [true_iff]
          exact ⟨not_not.mp h1, h2, h3, h4⟩

/- Shape of process_sbuf under PHASE_SCAN. -/

theorem process_sbuf_deep (st : scanner_set_state) (behavior : String → Option exc_t)
    (depth ngram_size : Nat) (seen_before : Bool) (hashv : String) (bufsize : Nat)
    (hphase : st.current_phase = .PHASE_SCAN) (hdeep : depth ≥ st.max_depth) :
    process_sbuf st behavior depth ngram_size seen_before hashv bufsize =
      .ok ([], [(MAX_DEPTH_REACHED_ERROR_FEATURE, MAX_DEPTH_REACHED_ERROR_CONTEXT)]) := by
  unfold process_sbuf
  rw [if_neg (by simp [hphase]), if_pos hdeep]

theorem process_sbuf_scan (st : scanner_set_state) (behavior : String → Option exc_t)
    (depth ngram_size : Nat) (seen_before : Bool) (hashv : String) (bufsize : Nat)
    (hphase : st.current_phase = .PHASE_SCAN) (hdeep : ¬(depth ≥ st.max_depth)) :
    process_sbuf st behavior depth ngram_size seen_before hashv bufsize =
      .ok ((dispatch_loop st.enabled_scanners behavior depth ngram_size seen_before
              st.scanner_info_db).1,
           (if seen_before = true ∧ st.dup_data_alerts = true then
              [("DUP SBUF " ++ hashv, "<buflen>" ++ toString bufsize ++ "</buflen>")]
            else []) ++
            (dispatch_loop st.enabled_scanners behavior depth ngram_size seen_before
              st.scanner_info_db).2) := by
  unfold process_sbuf
  rw [if_neg (by simp [hphase]), if_neg hdeep]

theorem dispatch_loop_alert_mem (enabled : List String)
    (behavior : String → Option exc_t) (depth ngram_size : Nat) (seen_before : Bool) :
    ∀ (db : List scanner_info), ∀ info ∈ db, ∀ e, behavior info.name = some e →
      scanner_skipped enabled info depth ngram_size seen_before = false →
      alert_of_exc e info.name ∈
        (dispatch_loop enabled behavior depth ngram_size seen_before db).2 := by
  intro db
  induction db with
  | nil => intro info hin; cases hin
  | cons hd tl ih =>
      intro info hin e hbeh hsk
      rcases List.mem_cons.mp hin with heq | hmem
      · subst heq
        simp only [dispatch_loop, hsk, Bool.false_eq_true, if_false, hbeh]
        exact .head _
      · simp only [dispatch_loop]
        by_cases hskhd : scanner_skipped enabled hd depth ngram_size seen_before
        · rw [if_pos hskhd]
          exact ih info hmem e hbeh hsk
        · rw [if_neg hskhd]
          cases hbh : behavior hd.name with
          | none => exact ih info hmem e hbeh hsk
          | some e2 => exact .tail _ (ih info hmem e hbeh hsk)

theorem dispatch_loop_invoked_ignores_behavior (enabled : List String)
    (behavior : String → Option exc_t) (depth ngram_size : Nat) (seen_before : Bool) :
    ∀ db : List scanner_info,
      (dispatch_loop enabled behavior depth ngram_size seen_before db).1 =
        (dispatch_loop enabled (fun _ => none) depth ngram_size seen_before db).1 := by
  intro db
  induction db with
  | nil => rfl
  | cons hd tl ih =>
      simp only [dispatch_loop]
      by_cases hsk : scanner_skipped enabled hd depth ngram_size seen_before
      · rw [if_pos hsk, if_pos hsk]
        exact ih
      · rw [if_neg hsk, if_neg hsk]
        cases hbeh : behavior hd.name <;> simp [ih]

/-- Claim C2: the claim states that every child-creating construction
increments the root children counter and destruction decrements it.  The
source contradicts this for the off-form constructor used by the plus
operator: its body never calls add_child, while the destructor still calls
del_child, so from a root without children the counter stays 0 during the
child lifetime instead of being at least 1, and destruction drives it to -1
instead of restoring 0, which also violates the del_child assertion that the
counter stays non-negative.  The two other child constructors do increment. -/
theorem C2_child_counter_bug :
    construct_child .from_pos0 0 = 1 ∧
    construct_child .from_off_len 0 = 1 ∧
    construct_child .from_off 0 = 0 ∧
    ¬(1 ≤ construct_child .from_off 0) ∧
    run_children [.construct .from_off, .destroy] 0 = -1 ∧
    ¬del_child_assertion (construct_child .from_off 0) := by
  refine ⟨rfl, rfl, rfl, by decide, by decide, ?_⟩
  unfold del_child_assertion construct_child
  decide

/-- Claim C3: under PHASE_SCAN, process_sbuf with a buffer at depth at least
max_depth invokes no scanner and writes exactly the MAX_DEPTH_REACHED alert;
below max_depth, a registered scanner is invoked exactly when it is enabled
and not gated out by the ngram, depth0_only and seen-before conditions. -/
theorem C3_dispatch_gating (st : scanner_set_state) (behavior : String → Option exc_t)
    (depth ngram_size : Nat) (seen_before : Bool) (hashv : String) (bufsize : Nat)
    (hphase : st.current_phase = .PHASE_SCAN)
    (hnd : (st.scanner_info_db.map scanner_info.name).Nodup) :
    (depth ≥ st.max_depth →
      process_sbuf st behavior depth ngram_size seen_before hashv bufsize =
        .ok ([], [(MAX_DEPTH_REACHED_ERROR_FEATURE, MAX_DEPTH_REACHED_ERROR_CONTEXT)])) ∧
    (depth < st.max_depth →
      ∀ info ∈ st.scanner_info_db,
        (info.name ∈
            ((process_sbuf st behavior depth ngram_size seen_before hashv
              bufsize).toOption.getD ([], [])).1 ↔
          info.name ∈ st.enabled_scanners ∧
          ¬(ngram_size > 0 ∧ info.scanner_flags.scan_ngram_buffer = false) ∧
          ¬(depth > 0 ∧ info.scanner_flags.depth0_only = true) ∧
          ¬(seen_before = true ∧ info.scanner_flags.scan_seen_before = false))) := by
  constructor
  · intro hdeep
    exact process_sbuf_deep st behavior depth ngram_size seen_before hashv bufsize
      hphase hdeep
  · intro hshallow info hin
    rw [process_sbuf_scan st behavior depth ngram_size seen_before hashv bufsize
      hphase (by omega)]
    have hm := dispatch_loop_mem st.enabled_scanners behavior depth ngram_size
      seen_before st.scanner_info_db hnd info hin
    exact Iff.trans hm
      (scanner_skipped_iff st.enabled_scanners info depth ngram_size seen_before)

/-- Witness for claim C3 at a concrete scanner set in PHASE_SCAN with two
scanners, one gated out by the ngram condition. -/
theorem C3_dispatch_gating_witness :
    "beta" ∈
      ((process_sbuf
        ⟨.PHASE_SCAN,
         [⟨"alpha", ⟨true, false, false, false, true⟩, [], []⟩,
          ⟨"beta", ⟨true, false, true, false, true⟩, [], []⟩],
         ["alpha", "beta"], [], [], [], false, true, false, 7, false⟩
        (fun _ => none) 0 4 false "h" 1024).toOption.getD ([], [])).1 ∧
    ¬("alpha" ∈
      ((process_sbuf
        ⟨.PHASE_SCAN,
         [⟨"alpha", ⟨true, false, false, false, true⟩, [], []⟩,
          ⟨"beta", ⟨true, false, true, false, true⟩, [], []⟩],
         ["alpha", "beta"], [], [], [], false, true, false, 7, false⟩
        (fun _ => none) 0 4 false "h" 1024).toOption.getD ([], [])).1) := by
  have h := C3_dispatch_gating
    ⟨.PHASE_SCAN,
     [⟨"alpha", ⟨true, false, false, false, true⟩, [], []⟩,
      ⟨"beta", ⟨true, false, true, false, true⟩, [], []⟩],
     ["alpha", "beta"], [], [], [], false, true, false, 7, false⟩
    (fun _ => none) 0 4 false "h" 1024 (by decide) (by decide)
  constructor
  · exact ((h.2 (by decide) ⟨"beta", ⟨true, false, true, false, true⟩, [], []⟩
      (by decide)).mpr (by decide))
  · intro hmem
    have := (h.2 (by decide) ⟨"alpha", ⟨true, false, false, false, true⟩, [], []⟩
      (by decide)).mp hmem
    exact absurd this (by decide)

/-- Claim C4: every exception thrown by an invoked scanner is caught inside
the dispatch loop and recorded to the alert recorder as an exception entry
tagged with the scanner name (unknown_exception for a non-std throw), the
call never propagates an exception out of process_sbuf, and the set of
invoked scanners does not depend on which scanners throw. -/
theorem C4_exception_isolation (st : scanner_set_state)
    (behavior : String → Option exc_t) (depth ngram_size : Nat) (seen_before : Bool)
    (hashv : String) (bufsize : Nat) (hphase : st.current_phase = .PHASE_SCAN) :
    (process_sbuf st behavior depth ngram_size seen_before hashv bufsize).isOk = true ∧
    (depth < st.max_depth →
      ∀ info ∈ st.scanner_info_db, ∀ e, behavior info.name = some e →
        scanner_skipped st.enabled_scanners info depth ngram_size seen_before = false →
        alert_of_exc e info.name ∈
          ((process_sbuf st behavior depth ngram_size seen_before hashv
            bufsize).toOption.getD ([], [])).2) ∧
    ((process_sbuf st behavior depth ngram_size seen_before hashv
        bufsize).toOption.getD ([], [])).1 =
      ((process_sbuf st (fun _ => none) depth ngram_size seen_before hashv
        bufsize).toOption.getD ([], [])).1 := by
  refine ⟨?_, ?_, ?_⟩
  · by_cases hdeep : depth ≥ st.max_depth
    · rw [process_sbuf_deep st behavior depth ngram_size seen_before hashv bufsize
        hphase hdeep]
      rfl
    · rw [process_sbuf_scan st behavior depth ngram_size seen_before hashv bufsize
        hphase hdeep]
      rfl
  · intro hshallow info hin e hbeh hsk
    rw [process_sbuf_scan st behavior depth ngram_size seen_before hashv bufsize
      hphase (by omega)]
    exact List.mem_append_right _
      (dispatch_loop_alert_mem st.enabled_scanners behavior depth ngram_size
        seen_before st.scanner_info_db info hin e hbeh hsk)
  · by_cases hdeep : depth ≥ st.max_depth
    · rw [process_sbuf_deep st behavior depth ngram_size seen_before hashv bufsize
        hphase hdeep,
        process_sbuf_deep st (fun _ => none) depth ngram_size seen_before hashv
          bufsize hphase hdeep]
    · rw [process_sbuf_scan st behavior depth ngram_size seen_before hashv bufsize
        hphase hdeep,
        process_sbuf_scan st (fun _ => none) depth ngram_size seen_before hashv
          bufsize hphase hdeep]
      exact dispatch_loop_invoked_ignores_behavior st.enabled_scanners behavior depth
        ngram_size seen_before st.scanner_info_db

/-- Witness for claim C4: a middle scanner throws, its exception is recorded
as an alert tagged with its name, and both neighbours still run. -/
theorem C4_exception_isolation_witness :
    ("scanner=bad", "<exception>boom</exception>") ∈
      ((process_sbuf
        ⟨.PHASE_SCAN,
         [⟨"good1", ⟨true, false, true, false, true⟩, [], []⟩,
          ⟨"bad", ⟨true, false, true, false, true⟩, [], []⟩,
          ⟨"good2", ⟨true, false, true, false, true⟩, [], []⟩],
         ["good1", "bad", "good2"], [], [], [], false, true, false, 7, false⟩
        (fun n => if n = "bad" then some (.std_exc "boom") else none)
        0 0 false "h" 4096).toOption.getD ([], [])).2 ∧
    ((process_sbuf
        ⟨.PHASE_SCAN,
         [⟨"good1", ⟨true, false, true, false, true⟩, [], []⟩,
          ⟨"bad", ⟨true, false, true, false, true⟩, [], []⟩,
          ⟨"good2", ⟨true, false, true, false, true⟩, [], []⟩],
         ["good1", "bad", "good2"], [], [], [], false, true, false, 7, false⟩
        (fun n => if n = "bad" then some (.std_exc "boom") else none)
        0 0 false "h" 4096).toOption.getD ([], [])).1 = ["good1", "bad", "good2"] := by
  have h := C4_exception_isolation
    ⟨.PHASE_SCAN,
     [⟨"good1", ⟨true, false, true, false, true⟩, [], []⟩,
      ⟨"bad", ⟨true, false, true, false, true⟩, [], []⟩,
      ⟨"good2", ⟨true, false, true, false, true⟩, [], []⟩],
     ["good1", "bad", "good2"], [], [], [], false, true, false, 7, false⟩
    (fun n => if n = "bad" then some (.std_exc "boom") else none)
    0 0 false "h" 4096 rfl
  constructor
  · have := h.2.1 (by decide) ⟨"bad", ⟨true, false, true, false, true⟩, [], []⟩
      (by decide) (.std_exc "boom") (by decide) (by decide)
    simpa [alert_of_exc] using this
  · decide

/-- Claim C5 amended: the phase advances only monotonically INIT to ENABLED to
SCAN to SHUTDOWN, with apply_scanner_commands, phase_scan and shutdown each
rejecting any other starting phase, and process_sbuf rejected outside
PHASE_SCAN; add_scanner, however, performs no phase check in the source and
succeeds in any phase exactly when the scanner is not already registered. -/
theorem C5_phase_machine (st : scanner_set_state) :
    (st.current_phase ≠ .PHASE_INIT → (apply_scanner_commands st).isOk = false) ∧
    (∀ st2, apply_scanner_commands st = .ok st2 →
      st.current_phase = .PHASE_INIT ∧ st2.current_phase = .PHASE_ENABLED) ∧
    (st.current_phase ≠ .PHASE_ENABLED → (phase_scan st).isOk = false) ∧
    (∀ st2, phase_scan st = .ok st2 →
      st.current_phase = .PHASE_ENABLED ∧ st2.current_phase = .PHASE_SCAN) ∧
    (∀ behavior depth ngram_size seen_before hashv bufsize,
      st.current_phase ≠ .PHASE_SCAN →
      (process_sbuf st behavior depth ngram_size seen_before hashv bufsize).isOk =
        false) ∧
    (st.current_phase ≠ .PHASE_SCAN → (shutdown st).isOk = false) ∧
    (∀ st2, shutdown st = .ok st2 →
      st.current_phase = .PHASE_SCAN ∧ st2.current_phase = .PHASE_SHUTDOWN) ∧
    (∀ info, (add_scanner st info).isOk =
      !(decide (info.name ∈ st.scanner_info_db.map scanner_info.name))) := by
  refine ⟨?_, ?_, ?_, ?_, ?_, ?_, ?_, ?_⟩
  · intro hph
    unfold apply_scanner_commands
    rw [if_pos hph]
    rfl
  · intro st2 h
    unfold apply_scanner_commands at h
    by_cases hph : st.current_phase ≠ .PHASE_INIT
    · rw [if_pos hph] at h
      cases h
    · rw [if_neg hph] at h
      refine ⟨not_not.mp hph, ?_⟩
      split at h
      · cases h
      · split at h
        · cases h
        · split at h
          · cases h
          · cases h
            rfl
  · intro hph
    unfold phase_scan
    rw [if_pos hph]
    rfl
  · intro st2 h
    unfold phase_scan at h
    by_cases hph : st.current_phase ≠ .PHASE_ENABLED
    · rw [if_pos hph] at h
      cases h
    · rw [if_neg hph] at h
      cases h
      exact ⟨not_not.mp hph, rfl⟩
  · intro behavior depth ngram_size seen_before hashv bufsize hph
    unfold process_sbuf
    rw [if_pos hph]
    rfl
  · intro hph
    unfold shutdown
    rw [if_pos hph]
    rfl
  · intro st2 h
    unfold shutdown at h
    by_cases hph : st.current_phase ≠ .PHASE_SCAN
    · rw [if_pos hph] at h
      cases h
    · rw [if_neg hph] at h
      cases h
      exact ⟨not_not.mp hph, rfl⟩
  · intro info
    unfold add_scanner
    by_cases hmem : info.name ∈ st.scanner_info_db.map scanner_info.name
    · rw [if_pos hmem]
      simp [Except.isOk, Except.toBool, hmem]
    · rw [if_neg hmem]
      simp [Except.isOk, Except.toBool, hmem]

/-- Witness for claim C5 at concrete states: operations in a wrong phase are
rejected. -/
theorem C5_phase_machine_witness :
    (apply_scanner_commands
      ⟨.PHASE_SCAN, [], [], [], [], [], false, true, false, 7, false⟩).isOk = false ∧
    (shutdown
      ⟨.PHASE_INIT, [], [], [], [], [], false, true, false, 7, false⟩).isOk = false := by
  have h1 := C5_phase_machine
    ⟨.PHASE_SCAN, [], [], [], [], [], false, true, false, 7, false⟩
  have h2 := C5_phase_machine
    ⟨.PHASE_INIT, [], [], [], [], [], false, true, false, 7, false⟩
  exact ⟨h1.1 (by decide), h2.2.2.2.2.2.1 (by decide)⟩

/-- Claim C5 counterexample: the claim states that add_scanner raises an error
whenever the current phase is not PHASE_INIT, but in a state already in
PHASE_SCAN registering a fresh scanner succeeds. -/
theorem C5_add_scanner_no_phase_check :
    (add_scanner ⟨.PHASE_SCAN, [], [], [], [], [], false, true, false, 7, false⟩
      ⟨"s", ⟨false, false, false, false, false⟩, [], []⟩).isOk = true := by
  decide


/-- Claim C8: the claim states that after the commands resolve the set creates
the alert recorder and then exactly the recorders and histograms declared by
the enabled scanners, with duplicate declarations silently merged.  The source
does neither: the creation loop walks every registered scanner whether enabled
or not, and create_feature_recorder raises FeatureRecorderAlreadyExists on a
duplicate name, which propagates out of apply_scanner_commands, although the
comment above the loop says multiple scanners may request the same feature
recorder without generating an error.  First conjunct: two enabled scanners
declaring the same recorder name make apply_scanner_commands fail.  Second
conjunct: the recorder of a scanner that is not enabled is created anyway. -/
theorem C8_recorder_creation_bug :
    apply_scanner_commands
      ⟨.PHASE_INIT,
       [⟨"a", ⟨false, false, false, false, false⟩, [⟨"url"⟩], []⟩,
        ⟨"b", ⟨false, false, false, false, false⟩, [⟨"url"⟩], []⟩],
       ["a", "b"], [], [], [], false, true, false, 7, false⟩ =
      .error "feature recorder already exists: url" ∧
    ((apply_scanner_commands
      ⟨.PHASE_INIT,
       [⟨"a", ⟨false, false, false, false, false⟩, [⟨"url"⟩], []⟩,
        ⟨"d", ⟨false, false, false, false, false⟩, [⟨"dl"⟩], []⟩],
       ["a"], [], [], [], false, true, false, 7, false⟩).toOption.map
        (fun x => x.frm)) = some ["alerts", "url", "dl"] := by
  constructor
  · rfl
  · rfl


/- Quoting and unquoting.  Bytes are naturals below 256; 92 is the backslash,
   120 the letter x, 48 the digit 0. -/

/- isodigit, from feature_recorder.cpp. -/
def isodigit (c : Nat) : Bool := 48 ≤ c ∧ c ≤ 55

/- hexval, from feature_recorder.cpp; unknown characters give 0. -/
def hexval (c : Nat) : Nat :=
  match c with
  | 48 => 0 | 49 => 1 | 50 => 2 | 51 => 3 | 52 => 4
  | 53 => 5 | 54 => 6 | 55 => 7 | 56 => 8 | 57 => 9
  | 97 => 10 | 65 => 10 | 98 => 11 | 66 => 11 | 99 => 12 | 67 => 12
  | 100 => 13 | 68 => 13 | 101 => 14 | 69 => 14 | 102 => 15 | 70 => 15
  | _ => 0

/- The C library isxdigit on byte values. -/
def isxdigit (c : Nat) : Bool :=
  (48 ≤ c ∧ c ≤ 57) ∨ (97 ≤ c ∧ c ≤ 102) ∨ (65 ≤ c ∧ c ≤ 70)

/- The loop body of unquote_string, from feature_recorder.cpp: an octal
   escape backslash-N-N-N or a hex escape backslash-x-H-H is decoded to one
   byte (the octal value is cast to uint8, hence the reduction mod 256); any
   other byte is copied.  The source guards both escapes by i + 3 < len,
   which is exactly the four byte patterns below. -/
def unquote_loop : List Nat → List Nat
  | b :: x :: h1 :: h2 :: rest =>
      if b = 92 ∧ isodigit x = true ∧ isodigit h1 = true ∧ isodigit h2 = true then
        ((x - 48) * 64 + (h1 - 48) * 8 + (h2 - 48)) % 256 :: unquote_loop rest
      else if b = 92 ∧ x = 120 ∧ isxdigit h1 = true ∧ isxdigit h2 = true then
        (hexval h1 * 16 ||| hexval h2) :: unquote_loop rest
      else b :: unquote_loop (x :: h1 :: h2 :: rest)
  | l => l

/- unquote_string, from feature_recorder.cpp: strings shorter than four
   bytes are returned unchanged. -/
def unquote_string (s : List Nat) : List Nat :=
  if s.length < 4 then s else unquote_loop s

/- Modelled from the spec: validateOrEscapeUTF8 of the missing
   unicode_escape.cpp.  The spec says invalid UTF-8 is encoded as a
   backslash-x-H-H escape and backslashes are doubled unless xml or no_quote
   is in effect.  utf8_len gives the length (1 to 4) of a valid UTF-8
   sequence starting at the given byte, or 0 when the byte starts none. -/

def is_cont (b : Nat) : Bool := 128 ≤ b ∧ b ≤ 191

def utf8_len (b : Nat) (rest : List Nat) : Nat :=
  if b < 128 then 1
  else if 194 ≤ b ∧ b ≤ 223 then
    match rest with
    | b2 :: _ => if is_cont b2 then 2 else 0
    | [] => 0
  else if 224 ≤ b ∧ b ≤ 239 then
    match rest with
    | b2 :: b3 :: _ => if is_cont b2 ∧ is_cont b3 then 3 else 0
    | _ => 0
  else if 240 ≤ b ∧ b ≤ 244 then
    match rest with
    | b2 :: b3 :: b4 :: _ => if is_cont b2 ∧ is_cont b3 ∧ is_cont b4 then 4 else 0
    | _ => 0
  else 0

/- Lower-case hex digit of a value below 16. -/
def hex_digit (d : Nat) : Nat := if d < 10 then 48 + d else 87 + d

/- The four byte escape of one invalid byte. -/
def esc_byte (b : Nat) : List Nat :=
  [92, 120, hex_digit (b / 16 % 16), hex_digit (b % 16)]

/- One valid byte, with the backslash doubled when requested. -/
def quote_byte (escape_backslash : Bool) (b : Nat) : List Nat :=
  if b = 92 ∧ escape_backslash = true then [92, 92] else [b]

/- The escape walk.  The fuel argument bounds the number of steps and is
   instantiated with the length of the byte string, which bounds the number
   of sequences; when the fuel runs out (never, on that instantiation) the
   result is empty. -/
def voe_go (escape_bad_utf8 escape_backslash : Bool) :
    Nat → List Nat → List Nat
  | _, [] => []
  | 0, _ :: _ => []
  | fuel + 1, b :: rest =>
      match utf8_len b rest with
      | 0 =>
          (if escape_bad_utf8 then esc_byte b else [b]) ++
            voe_go escape_bad_utf8 escape_backslash fuel rest
      | k + 1 =>
          quote_byte escape_backslash b ++ rest.take k ++
            voe_go escape_bad_utf8 escape_backslash fuel (rest.drop k)

def validateOrEscapeUTF8 (escape_bad_utf8 escape_backslash : Bool)
    (l : List Nat) : List Nat :=
  voe_go escape_bad_utf8 escape_backslash l.length l

/- Feature recorder write pipeline, from feature_recorder.cpp. -/

structure feature_recorder_flags_t where
  no_quote : Bool
  xml : Bool
  no_context : Bool
  no_stoplist : Bool
deriving DecidableEq

structure feature_recorder_def where
  name : String
  max_feature_size : Nat
  max_context_size : Nat
  flags : feature_recorder_flags_t
deriving DecidableEq

structure fs_flags_t where
  disabled : Bool
  pedantic : Bool
deriving DecidableEq

structure feature_recorder_state where
  features_written : Nat
  histogram_features : List (List Nat)
  output : List (pos0_t × List Nat × List Nat)
deriving DecidableEq

/- The 2-bit escape decision of quote_if_necessary: default both escapes,
   no_quote clears both, xml then forces bad-utf8 escaping only. -/
def escape_flags (d : feature_recorder_def) : Bool × Bool :=
  if d.flags.xml then (true, false)
  else if d.flags.no_quote then (false, false)
  else (true, true)

/- quote_if_necessary, from feature_recorder.cpp: validate or escape the
   feature, truncate it to max_feature_size, and unless no_context is set do
   the same for the context with max_context_size. -/
def quote_if_necessary (d : feature_recorder_def) (feature context : List Nat) :
    List Nat × List Nat :=
  let ef := escape_flags d
  let f2 := (validateOrEscapeUTF8 ef.1 ef.2 feature).take d.max_feature_size
  if d.flags.no_context = false then
    (f2, (validateOrEscapeUTF8 ef.1 ef.2 context).take d.max_context_size)
  else (f2, context)

/- write0, from feature_recorder.cpp, extended with the sink append that the
   file backend subclass (not among the sources) performs per the spec. -/
def write0 (disabled : Bool) (st : feature_recorder_state) (pos0 : pos0_t)
    (feature context : List Nat) : feature_recorder_state :=
  if disabled then st
  else { st with
         features_written := st.features_written + 1,
         output := st.output ++ [(pos0, feature, context)] }

/- histograms_add_feature, from feature_recorder.cpp. -/
def histograms_add_feature (st : feature_recorder_state) (feature : List Nat) :
    feature_recorder_state :=
  { st with histogram_features := st.histogram_features ++ [feature] }

/- write without the stop list branch: the pipeline run by the stop list
   recorder itself, which per the comment in write has no stop list of its
   own. -/
def fr_write_nostop (d : feature_recorder_def) (fsf : fs_flags_t)
    (st : feature_recorder_state) (pos0 : pos0_t) (feature0 context0 : List Nat) :
    Except String feature_recorder_state :=
  if fsf.disabled then .ok st
  else if fsf.pedantic = true ∧ feature0.length > d.max_feature_size then
    .error "feature_recorder::write : feature_.size()"
  else if fsf.pedantic = true ∧ context0.length > d.max_context_size then
    .error "feature_recorder::write : context_.size()"
  else
    let context1 := if d.flags.no_context then [] else context0
    let q := quote_if_necessary d feature0 context1
    if q.1.length = 0 then
      if fsf.pedantic then .error "zero length feature" else .ok st
    else if fsf.pedantic = true ∧ (9 ∈ q.1 ∨ 10 ∈ q.1 ∨ 13 ∈ q.1) then
      .error "feature contains tab, newline or carriage return"
    else if fsf.pedantic = true ∧ (9 ∈ q.2 ∨ 10 ∈ q.2 ∨ 13 ∈ q.2) then
      .error "context contains tab, newline or carriage return"
    else .ok (write0 fsf.disabled (histograms_add_feature st q.1) pos0 q.1 q.2)

/- write, from feature_recorder.cpp.  make_utf8 (from the missing
   unicode_escape.cpp) and the stop list matcher (from the missing
   word_and_context_list) enter as parameters; stop_check is some exactly
   when both fs.stop_list and fs.stop_list_recorder are set.  The primary
   recorder state is pst, the stop list recorder state sst with def sd. -/
def fr_write (d : feature_recorder_def) (fsf : fs_flags_t)
    (stop_check : Option (List Nat → List Nat → Bool))
    (make_utf8 : List Nat → List Nat) (sd : feature_recorder_def)
    (pst sst : feature_recorder_state) (pos0 : pos0_t)
    (feature0 context0 : List Nat) :
    Except String (feature_recorder_state × feature_recorder_state) :=
  if fsf.disabled then .ok (pst, sst)
  else if fsf.pedantic = true ∧ feature0.length > d.max_feature_size then
    .error "feature_recorder::write : feature_.size()"
  else if fsf.pedantic = true ∧ context0.length > d.max_context_size then
    .error "feature_recorder::write : context_.size()"
  else
    let context1 := if d.flags.no_context then [] else context0
    let feature_utf8 := make_utf8 feature0
    let q := quote_if_necessary d feature0 context1
    if q.1.length = 0 then
      if fsf.pedantic then .error "zero length feature" else .ok (pst, sst)
    else if fsf.pedantic = true ∧ (9 ∈ q.1 ∨ 10 ∈ q.1 ∨ 13 ∈ q.1) then
      .error "feature contains tab, newline or carriage return"
    else if fsf.pedantic = true ∧ (9 ∈ q.2 ∨ 10 ∈ q.2 ∨ 13 ∈ q.2) then
      .error "context contains tab, newline or carriage return"
    else
      if d.flags.no_stoplist = false ∧ stop_check.isSome = true ∧
          (stop_check.getD (fun _ _ => false)) feature_utf8 q.2 = true then
        (fr_write_nostop sd fsf sst pos0 q.1 q.2).map (fun s2 => (pst, s2))
      else
        .ok (write0 fsf.disabled (histograms_add_feature pst q.1) pos0 q.1 q.2, sst)

/- Modelled from the spec: shifting a position by integer addition increases
   the offset; the pos0.h operators are not among the sources. -/
def pos0_add (p : pos0_t) (n : Nat) : pos0_t := ⟨p.path, p.offset + n⟩

/- Modelled from the spec: substr of sbuf.h returns the len bytes starting
   at loc; its implementation file is not among the sources.  write_buf only
   calls it in range. -/
def substr (s : sbuf_t) (loc len : Nat) : List Nat := (s.buf.drop loc).take len

/- write_buf, from feature_recorder.cpp: silently drop margin positions,
   throw on positions at or past bufsize, clamp the length, build the
   context window, and hand the triple to write.  The result is the triple
   passed to write, or none for the silent margin drop. -/
def write_buf (d : feature_recorder_def) (context_window : Nat) (s : sbuf_t)
    (pos len : Nat) : Except String (Option (pos0_t × List Nat × List Nat)) :=
  if pos ≥ s.pagesize ∧ pos < s.bufsize then .ok none
  else if pos ≥ s.bufsize then .error "write_buf: WRITE OUTSIDE BUFFER"
  else
    let len2 := if pos + len > s.bufsize then s.bufsize - pos else len
    let feature := substr s pos len2
    let context :=
      if d.flags.no_context = false then
        let p0 := if context_window < pos then pos - context_window else 0
        let p1 := if pos + len2 + context_window > s.bufsize then s.bufsize
                  else pos + len2 + context_window
        substr s p0 (p1 - p0)
      else []
    .ok (some (pos0_add s.pos0 pos, feature, context))

/- Carving, from feature_recorder.cpp. -/

inductive carve_mode_t
  | CARVE_NONE
  | CARVE_ENCODED
  | CARVE_ALL
deriving DecidableEq

/- The sentinel path constants are declared in the missing
   feature_recorder.h; their exact spelling does not matter here. -/
def NO_CARVED_FILE : String := "<NO-CARVED-FILE>"

def CACHED : String := "<CACHED>"

/- What carve reads from each of its two sbuf arguments: the forensic path,
   its innermost alpha token, its stringification, the buffer size and the
   content hash (alphaPart, str and hash live in files not among the
   sources). -/
structure carve_input where
  pos0_path : String
  alpha_part : String
  pos0_str : String
  bufsize : Nat
  hashv : String
deriving DecidableEq

structure carve_state where
  carve_cache : List String
  carved_file_count : Nat
  files : List (String × Nat)
  features : List (String × String × String)
deriving DecidableEq

/- atomic_set check_for_presence_and_insert: the returned flag says whether
   the value was already present; the value is inserted either way. -/
def check_for_presence_and_insert (cache : List String) (h : String) :
    Bool × List String :=
  (h ∈ cache, if h ∈ cache then cache else cache ++ [h])

/- setw(3) with fill 0 of n, from the carve sequence number formatting. -/
def pad3 (n : Nat) : String :=
  if n < 10 then "00" ++ toString n
  else if n < 100 then "0" ++ toString n
  else toString n

/- The fileobject XML written as the carve feature context; the filename
   element is present exactly when the carve was not a cache hit.  The
   attribute quoting of the source is immaterial and omitted. -/
def carve_xml (filename : Option String) (filesize : Nat)
    (hasher_name hashv : String) : String :=
  "<fileobject>" ++
    (match filename with
     | some f => "<filename>" ++ f ++ "</filename>"
     | none => "") ++
    "<filesize>" ++ toString filesize ++ "</filesize>" ++
    "<hashdigest type=" ++ hasher_name ++ ">" ++ hashv ++ "</hashdigest>" ++
    "</fileobject>"

/- The carving branch common to CARVE_ENCODED and CARVE_ALL: test and insert
   the content hash; on a hit record the feature with path CACHED and write
   no file; otherwise allocate the next sequence number, record the relative
   path and write the file.  The mtime stamp touches no modelled state. -/
def carve_body (recname outdir hasher_name : String) (st : carve_state)
    (header data : carve_input) (ext : String) : carve_state × String :=
  let h := data.hashv
  let pr := check_for_presence_and_insert st.carve_cache h
  if pr.1 then
    ({ st with
       carve_cache := pr.2,
       features := st.features ++
         [(data.pos0_str, CACHED,
           carve_xml none (header.bufsize + data.bufsize) hasher_name h)] },
     CACHED)
  else
    let n := st.carved_file_count
    let thousands := pad3 (n / 1000)
    let fname := data.pos0_str ++ ext
    let rel := recname ++ "/" ++ thousands ++ "/" ++ fname
    let absp := outdir ++ "/" ++ recname ++ "/" ++ thousands ++ "/" ++ fname
    ({ carve_cache := pr.2,
       carved_file_count := n + 1,
       files := st.files ++ [(absp, header.bufsize + data.bufsize)],
       features := st.features ++
         [(data.pos0_str, rel,
           carve_xml (some rel) (header.bufsize + data.bufsize) hasher_name h)] },
     rel)

/- carve, from feature_recorder.cpp: the mode gate, then the carving branch. -/
def carve (mode : carve_mode_t) (do_not_carve_encoding : String)
    (recname outdir hasher_name : String) (st : carve_state)
    (header data : carve_input) (ext : String) (mtime : Nat) :
    carve_state × String :=
  match mode with
  | .CARVE_NONE => (st, NO_CARVED_FILE)
  | .CARVE_ENCODED =>
      if data.pos0_path.length = 0 then (st, NO_CARVED_FILE)
      else if data.alpha_part = do_not_carve_encoding then (st, "")
      else carve_body recname outdir hasher_name st header data ext
  | .CARVE_ALL => carve_body recname outdir hasher_name st header data ext

structure carve_call where
  header : carve_input
  data : carve_input
  ext : String
  mtime : Nat
deriving DecidableEq

/- A sequence of carve calls, collecting the returned relative paths. -/
def carve_run (mode : carve_mode_t) (dnc recname outdir hasher_name : String) :
    carve_state → List carve_call → carve_state × List String
  | st, [] => (st, [])
  | st, c :: cs =>
      let r := carve mode dnc recname outdir hasher_name st c.header c.data c.ext
        c.mtime
      let rr := carve_run mode dnc recname outdir hasher_name r.1 cs
      (rr.1, r.2 :: rr.2)


/- Round trip lemmas for the quoting law. -/

theorem esc_decode : ∀ b < 256,
    isxdigit (hex_digit (b / 16 % 16)) = true ∧
    isxdigit (hex_digit (b % 16)) = true ∧
    (hexval (hex_digit (b / 16 % 16)) * 16 ||| hexval (hex_digit (b % 16))) = b := by
  decide

theorem unquote_loop_cons (c : Nat) (hc : c ≠ 92) :
    ∀ l, unquote_loop (c :: l) = c :: unquote_loop l := by
  intro l
  match l with
  | [] => rfl
  | [x] => rfl
  | [x, y] => rfl
  | x :: y :: z :: rest =>
      show (if c = 92 ∧ isodigit x = true ∧ isodigit y = true ∧ isodigit z = true then
              ((x - 48) * 64 + (y - 48) * 8 + (z - 48)) % 256 :: unquote_loop rest
            else if c = 92 ∧ x = 120 ∧ isxdigit y = true ∧ isxdigit z = true then
              (hexval y * 16 ||| hexval z) :: unquote_loop rest
            else c :: unquote_loop (x :: y :: z :: rest)) =
          c :: unquote_loop (x :: y :: z :: rest)
      rw [if_neg (fun hcon => hc hcon.1), if_neg (fun hcon => hc hcon.1)]

theorem unquote_loop_append (l m : List Nat) (hl : ∀ c ∈ l, c ≠ 92) :
    unquote_loop (l ++ m) = l ++ unquote_loop m := by
  induction l with
  | nil => simp
  | cons c r ih =>
      have hc : c ≠ 92 := hl c (.head _)
      have hr : ∀ x ∈ r, x ≠ 92 := fun x hx => hl x (.tail _ hx)
      simp only [List.cons_append]
      rw [unquote_loop_cons c hc, ih hr]

theorem unquote_loop_esc (b : Nat) (hb : b < 256) (m : List Nat) :
    unquote_loop (esc_byte b ++ m) = b :: unquote_loop m := by
  obtain ⟨hx1, hx2, hdec⟩ := esc_decode b hb
  show (if (92 : Nat) = 92 ∧ isodigit 120 = true ∧
            isodigit (hex_digit (b / 16 % 16)) = true ∧
            isodigit (hex_digit (b % 16)) = true then
          ((120 - 48) * 64 + (hex_digit (b / 16 % 16) - 48) * 8 +
            (hex_digit (b % 16) - 48)) % 256 :: unquote_loop m
        else if (92 : Nat) = 92 ∧ (120 : Nat) = 120 ∧
            isxdigit (hex_digit (b / 16 % 16)) = true ∧
            isxdigit (hex_digit (b % 16)) = true then
          (hexval (hex_digit (b / 16 % 16)) * 16 ||| hexval (hex_digit (b % 16))) ::
            unquote_loop m
        else 92 :: unquote_loop (120 :: hex_digit (b / 16 % 16) ::
          hex_digit (b % 16) :: m)) = b :: unquote_loop m
  rw [if_neg (fun hcon => absurd hcon.2.1 (by decide)),
      if_pos ⟨rfl, rfl, hx1, hx2⟩, hdec]

theorem voe_go_invalid (e1 e2 : Bool) (fuel : Nat) (b : Nat) (rest : List Nat)
    (h : utf8_len b rest = 0) :
    voe_go e1 e2 (fuel + 1) (b :: rest) =
      (if e1 then esc_byte b else [b]) ++ voe_go e1 e2 fuel rest := by
  show (match utf8_len b rest with
        | 0 => (if e1 then esc_byte b else [b]) ++ voe_go e1 e2 fuel rest
        | k + 1 =>
            quote_byte e2 b ++ rest.take k ++ voe_go e1 e2 fuel (rest.drop k)) =
      (if e1 then esc_byte b else [b]) ++ voe_go e1 e2 fuel rest
  rw [h]

theorem voe_go_valid (e1 e2 : Bool) (fuel : Nat) (b : Nat) (rest : List Nat) (k : Nat)
    (h : utf8_len b rest = k + 1) :
    voe_go e1 e2 (fuel + 1) (b :: rest) =
      quote_byte e2 b ++ rest.take k ++ voe_go e1 e2 fuel (rest.drop k) := by
  show (match utf8_len b rest with
        | 0 => (if e1 then esc_byte b else [b]) ++ voe_go e1 e2 fuel rest
        | j + 1 =>
            quote_byte e2 b ++ rest.take j ++ voe_go e1 e2 fuel (rest.drop j)) =
      quote_byte e2 b ++ rest.take k ++ voe_go e1 e2 fuel (rest.drop k)
  rw [h]

theorem voe_go_unquote : ∀ (fuel : Nat) (x : List Nat), x.length ≤ fuel →
    (∀ c ∈ x, c < 256) → (∀ c ∈ x, c ≠ 92) →
    unquote_loop (voe_go true true fuel x) = x := by
  intro fuel
  induction fuel with
  | zero =>
      intro x hlen _ _
      have hx : x = [] := List.eq_nil_of_length_eq_zero (by omega)
      subst hx
      rfl
  | succ n ih =>
      intro x hlen h256 h92
      match x with
      | [] => rfl
      | b :: rest =>
          have hb256 : b < 256 := h256 b (.head _)
          have hb92 : b ≠ 92 := h92 b (.head _)
          have hrest256 : ∀ c ∈ rest, c < 256 := fun c hc => h256 c (.tail _ hc)
          have hrest92 : ∀ c ∈ rest, c ≠ 92 := fun c hc => h92 c (.tail _ hc)
          have hrlen : rest.length ≤ n := by
            simp only [List.length_cons] at hlen
            omega
          cases hul : utf8_len b rest with
          | zero =>
              rw [voe_go_invalid true true n b rest hul, if_pos rfl]
              rw [unquote_loop_esc b hb256]
              rw [ih rest hrlen hrest256 hrest92]
          | succ k =>
              rw [voe_go_valid true true n b rest k hul]
              have hqb : quote_byte true b = [b] := by
                simp [quote_byte, hb92]
              rw [hqb]
              have htk92 : ∀ c ∈ rest.take k, c ≠ 92 := fun c hc =>
                hrest92 c (List.take_subset k rest hc)
              have hdlen : (rest.drop k).length ≤ n := by
                simp only [List.length_drop]
                omega
              have hd256 : ∀ c ∈ rest.drop k, c < 256 := fun c hc =>
                hrest256 c (List.drop_subset k rest hc)
              have hd92 : ∀ c ∈ rest.drop k, c ≠ 92 := fun c hc =>
                hrest92 c (List.drop_subset k rest hc)
              simp only [List.singleton_append, List.cons_append, List.append_assoc,
                List.nil_append]
              rw [unquote_loop_cons b hb92, unquote_loop_append (rest.take k) _ htk92,
                  ih (rest.drop k) hdlen hd256 hd92]
              simp [List.take_append_drop]

theorem voe_go_short_id : ∀ (fuel : Nat) (x : List Nat), x.length ≤ fuel →
    (∀ c ∈ x, c ≠ 92) →
    (voe_go true true fuel x).length < 4 →
    voe_go true true fuel x = x := by
  intro fuel
  induction fuel with
  | zero =>
      intro x hlen _ _
      have hx : x = [] := List.eq_nil_of_length_eq_zero (by omega)
      subst hx
      rfl
  | succ n ih =>
      intro x hlen h92 hshort
      match x with
      | [] => rfl
      | b :: rest =>
          have hb92 : b ≠ 92 := h92 b (.head _)
          have hrest92 : ∀ c ∈ rest, c ≠ 92 := fun c hc => h92 c (.tail _ hc)
          have hrlen : rest.length ≤ n := by
            simp only [List.length_cons] at hlen
            omega
          cases hul : utf8_len b rest with
          | zero =>
              rw [voe_go_invalid true true n b rest hul, if_pos rfl] at hshort
              exfalso
              simp only [esc_byte, List.length_append, List.length_cons,
                List.length_nil] at hshort
              omega
          | succ k =>
              rw [voe_go_valid true true n b rest k hul] at hshort ⊢
              have hqb : quote_byte true b = [b] := by
                simp [quote_byte, hb92]
              rw [hqb] at hshort ⊢
              have hdlen : (rest.drop k).length ≤ n := by
                simp only [List.length_drop]
                omega
              have hd92 : ∀ c ∈ rest.drop k, c ≠ 92 := fun c hc =>
                hrest92 c (List.drop_subset k rest hc)
              have hshort2 : (voe_go true true n (rest.drop k)).length < 4 := by
                simp only [List.singleton_append, List.cons_append, List.append_assoc,
                  List.length_cons, List.length_append] at hshort
                omega
              rw [ih (rest.drop k) hdlen hd92 hshort2]
              simp [List.take_append_drop]

/-- Claim C9 counterexample: the claim states the round trip for every byte
sequence, but for the four bytes backslash a b c the default policy doubles
the backslash and unquote_string does not undo the doubling. -/
theorem C9_roundtrip_counterexample :
    unquote_string (validateOrEscapeUTF8 true true [92, 97, 98, 99]) ≠
      [92, 97, 98, 99] := by
  decide

/-- Claim C9 amended: for every byte sequence x that contains no backslash,
applying the default quoting policy of quote_if_necessary (a recorder with
neither xml nor no_quote set escapes invalid UTF-8 as hex escapes and doubles
backslashes) and then feature_recorder unquote_string yields x unchanged.  On
sequences containing a backslash the round trip fails, because
unquote_string reverses only octal and hex escapes, not the doubling. -/
theorem C9_quote_roundtrip (d : feature_recorder_def) (hx : d.flags.xml = false)
    (hq : d.flags.no_quote = false) (x : List Nat) (h256 : ∀ c ∈ x, c < 256)
    (h92 : ∀ c ∈ x, c ≠ 92) :
    unquote_string
      (validateOrEscapeUTF8 (escape_flags d).1 (escape_flags d).2 x) = x := by
  have hef : escape_flags d = (true, true) := by
    simp [escape_flags, hx, hq]
  rw [hef]
  unfold unquote_string validateOrEscapeUTF8
  by_cases hlen : (voe_go true true x.length x).length < 4
  · rw [if_pos hlen]
    exact voe_go_short_id x.length x le_rfl h92 hlen
  · rw [if_neg hlen]
    exact voe_go_unquote x.length x le_rfl h256 h92

/-- Witness for the amended claim C9 at a concrete byte sequence containing
an invalid UTF-8 byte and no backslash. -/
theorem C9_quote_roundtrip_witness :
    unquote_string
      (validateOrEscapeUTF8
        (escape_flags ⟨"url", 100, 100, ⟨false, false, false, false⟩⟩).1
        (escape_flags ⟨"url", 100, 100, ⟨false, false, false, false⟩⟩).2
        [104, 105, 255, 120, 52, 49]) = [104, 105, 255, 120, 52, 49] := by
  exact C9_quote_roundtrip ⟨"url", 100, 100, ⟨false, false, false, false⟩⟩ rfl rfl
    [104, 105, 255, 120, 52, 49] (by decide) (by decide)


/-- Claim C10: write_buf raises the WRITE OUTSIDE BUFFER runtime error for
every position at or past bufsize; the silent drop applies exactly to margin
positions between pagesize and bufsize; and for in-page positions whose
requested length runs past bufsize the length is clamped to bufsize minus
pos before the feature is extracted and handed to write. -/
theorem C10_write_buf_bounds (d : feature_recorder_def) (w : Nat) (s : sbuf_t)
    (pos len : Nat) :
    (pos ≥ s.bufsize →
      write_buf d w s pos len = .error "write_buf: WRITE OUTSIDE BUFFER") ∧
    (s.pagesize ≤ pos → pos < s.bufsize → write_buf d w s pos len = .ok none) ∧
    (pos < s.pagesize → s.pagesize ≤ s.bufsize → pos + len > s.bufsize →
      ∃ context, write_buf d w s pos len =
        .ok (some (pos0_add s.pos0 pos, substr s pos (s.bufsize - pos), context))) := by
  refine ⟨?_, ?_, ?_⟩
  · intro hpast
    unfold write_buf
    rw [if_neg (fun hcon => absurd hcon.2 (by omega)), if_pos hpast]
  · intro h1 h2
    unfold write_buf
    rw [if_pos ⟨h1, h2⟩]
  · intro h1 h2 h3
    unfold write_buf
    rw [if_neg (fun hcon => absurd hcon.1 (by omega)),
        if_neg (fun hcon => absurd hcon (by omega)), if_pos h3]
    exact ⟨_, rfl⟩

/-- Witness for claim C10 at a concrete six byte sbuf with a four byte page:
position 6 is past the buffer and errors, position 4 is in the margin and is
silently dropped. -/
theorem C10_write_buf_bounds_witness :
    write_buf ⟨"url", 100, 100, ⟨false, false, false, false⟩⟩ 16
        ⟨⟨"p", 0⟩, [1, 2, 3, 4, 5, 6], 4⟩ 6 2 =
      .error "write_buf: WRITE OUTSIDE BUFFER" ∧
    write_buf ⟨"url", 100, 100, ⟨false, false, false, false⟩⟩ 16
        ⟨⟨"p", 0⟩, [1, 2, 3, 4, 5, 6], 4⟩ 4 2 = .ok none := by
  have h6 := C10_write_buf_bounds ⟨"url", 100, 100, ⟨false, false, false, false⟩⟩ 16
    ⟨⟨"p", 0⟩, [1, 2, 3, 4, 5, 6], 4⟩ 6 2
  have h4 := C10_write_buf_bounds ⟨"url", 100, 100, ⟨false, false, false, false⟩⟩ 16
    ⟨⟨"p", 0⟩, [1, 2, 3, 4, 5, 6], 4⟩ 4 2
  exact ⟨h6.1 (by decide), h4.2.1 (by decide) (by decide)⟩


/- Non-emptiness of the quoted feature. -/

theorem voe_go_cons_ne_nil (e1 e2 : Bool) (fuel b : Nat) (rest : List Nat) :
    voe_go e1 e2 (fuel + 1) (b :: rest) ≠ [] := by
  cases hul : utf8_len b rest with
  | zero =>
      rw [voe_go_invalid e1 e2 fuel b rest hul]
      cases e1 <;> simp [esc_byte]
  | succ k =>
      rw [voe_go_valid e1 e2 fuel b rest k hul]
      by_cases hq : b = 92 ∧ e2 = true <;> simp [quote_byte, hq]

theorem voe_ne_nil (e1 e2 : Bool) (f : List Nat) (hf : f ≠ []) :
    validateOrEscapeUTF8 e1 e2 f ≠ [] := by
  match f with
  | [] => exact absurd rfl hf
  | b :: rest => exact voe_go_cons_ne_nil e1 e2 rest.length b rest

theorem quote_first_length_pos (d : feature_recorder_def) (f c : List Nat)
    (hf : f ≠ []) (hmax : 0 < d.max_feature_size) :
    ¬((quote_if_necessary d f c).1.length = 0) := by
  have h1 : (quote_if_necessary d f c).1 =
      (validateOrEscapeUTF8 (escape_flags d).1 (escape_flags d).2 f).take
        d.max_feature_size := by
    unfold quote_if_necessary
    by_cases hnc : d.flags.no_context = false <;> simp [hnc]
  rw [h1]
  have hne := voe_ne_nil (escape_flags d).1 (escape_flags d).2 f hf
  simp only [List.length_eq_zero, List.take_eq_nil_iff]
  intro hcon
  rcases hcon with hcon | hcon
  · omega
  · exact hne hcon

/- The successful shape of the stop list recorder write. -/
theorem fr_write_nostop_ok (sd : feature_recorder_def) (fsf : fs_flags_t)
    (sst : feature_recorder_state) (pos0 : pos0_t) (f0 c0 : List Nat)
    (hdis : fsf.disabled = false) (hped : fsf.pedantic = false)
    (hf0 : f0 ≠ []) (hmax : 0 < sd.max_feature_size) :
    (fr_write_nostop sd fsf sst pos0 f0 c0).isOk = true ∧
    (∀ r, fr_write_nostop sd fsf sst pos0 f0 c0 = .ok r →
      r.features_written = sst.features_written + 1 ∧
      r.output.length = sst.output.length + 1 ∧
      r.histogram_features.length = sst.histogram_features.length + 1) := by
  have hq := quote_first_length_pos sd f0
    (if sd.flags.no_context then [] else c0) hf0 hmax
  unfold fr_write_nostop
  rw [if_neg (by simp [hdis]), if_neg (by simp [hped]), if_neg (by simp [hped]),
      if_neg hq, if_neg (by simp [hped]), if_neg (by simp [hped])]
  constructor
  · rfl
  · intro r hr
    cases hr
    simp [write0, hdis, histograms_add_feature]

/-- Claim C7 amended: when the configured stop list matches the feature and
context passed to write on a recorder without the no_stoplist flag, the
feature goes to the stop list recorder instead of the primary sink: the stop
list recorder gains one output line and its features_written increments,
while the primary recorder is left entirely unchanged: its output gets no
line, its histograms do not receive the feature, and, contrary to the claim
as written, its features_written does not increment (the increment happens
on the stop list recorder, whose write0 runs instead). -/
theorem C7_stoplist_write (d sd : feature_recorder_def) (fsf : fs_flags_t)
    (f : List Nat → List Nat → Bool) (make_utf8 : List Nat → List Nat)
    (pst sst : feature_recorder_state) (pos0 : pos0_t)
    (feature0 context0 : List Nat)
    (hdis : fsf.disabled = false) (hped : fsf.pedantic = false)
    (hnostop : d.flags.no_stoplist = false)
    (hf0 : feature0 ≠ []) (hdmax : 0 < d.max_feature_size)
    (hsmax : 0 < sd.max_feature_size)
    (hmatch : f (make_utf8 feature0)
      (quote_if_necessary d feature0
        (if d.flags.no_context then [] else context0)).2 = true) :
    (fr_write d fsf (some f) make_utf8 sd pst sst pos0 feature0 context0).isOk =
      true ∧
    (∀ pst2 sst2,
      fr_write d fsf (some f) make_utf8 sd pst sst pos0 feature0 context0 =
        .ok (pst2, sst2) →
      pst2 = pst ∧
      sst2.features_written = sst.features_written + 1 ∧
      sst2.output.length = sst.output.length + 1) := by
  have hq := quote_first_length_pos d feature0
    (if d.flags.no_context then [] else context0) hf0 hdmax
  have hns := fr_write_nostop_ok sd fsf sst pos0
    (quote_if_necessary d feature0
      (if d.flags.no_context then [] else context0)).1
    (quote_if_necessary d feature0
      (if d.flags.no_context then [] else context0)).2
    hdis hped (by intro hcon; exact hq (by simp [hcon])) hsmax
  unfold fr_write
  rw [if_neg (show ¬(fsf.disabled = true) by simp [hdis]),
      if_neg (show ¬(fsf.pedantic = true ∧ feature0.length > d.max_feature_size) by
        simp [hped]),
      if_neg (show ¬(fsf.pedantic = true ∧ context0.length > d.max_context_size) by
        simp [hped]),
      if_neg hq,
      if_neg (show ¬(fsf.pedantic = true ∧
        (9 ∈ (quote_if_necessary d feature0
            (if d.flags.no_context then [] else context0)).1 ∨
         10 ∈ (quote_if_necessary d feature0
            (if d.flags.no_context then [] else context0)).1 ∨
         13 ∈ (quote_if_necessary d feature0
            (if d.flags.no_context then [] else context0)).1)) by simp [hped]),
      if_neg (show ¬(fsf.pedantic = true ∧
        (9 ∈ (quote_if_necessary d feature0
            (if d.flags.no_context then [] else context0)).2 ∨
         10 ∈ (quote_if_necessary d feature0
            (if d.flags.no_context then [] else context0)).2 ∨
         13 ∈ (quote_if_necessary d feature0
            (if d.flags.no_context then [] else context0)).2)) by simp [hped]),
      if_pos (show d.flags.no_stoplist = false ∧
        (Option.some f).isSome = true ∧
        ((Option.some f).getD (fun _ _ => false)) (make_utf8 feature0)
          (quote_if_necessary d feature0
            (if d.flags.no_context then [] else context0)).2 = true from
        ⟨hnostop, rfl, hmatch⟩)]
  rcases hrn : fr_write_nostop sd fsf sst pos0
      (quote_if_necessary d feature0
        (if d.flags.no_context then [] else context0)).1
      (quote_if_necessary d feature0
        (if d.flags.no_context then [] else context0)).2 with e | s2
  · exfalso
    rw [hrn] at hns
    simp [Except.isOk, Except.toBool] at hns
  · constructor
    · rfl
    · intro pst2 sst2 hok
      simp only [Except.map] at hok
      cases hok
      obtain ⟨hfw, hout, _⟩ := hns.2 s2 hrn
      exact ⟨rfl, hfw, hout⟩

/-- Claim C7 counterexample: at a concrete matched write, the primary
recorder's features_written stays 0 rather than incrementing as the claim
states; the stop list recorder's counter and output grow instead, and the
primary histograms and output stay empty. -/
theorem C7_stoplist_counterexample :
    (fr_write ⟨"url", 100, 100, ⟨false, false, false, false⟩⟩ ⟨false, false⟩
      (some (fun fe _ => decide (fe = [115, 112, 97, 109]))) (fun l => l)
      ⟨"url_stopped", 100, 100, ⟨false, false, false, true⟩⟩
      ⟨0, [], []⟩ ⟨0, [], []⟩ ⟨"", 0⟩ [115, 112, 97, 109] [99]).toOption.map
        (fun r => (r.1.features_written, r.2.features_written,
          r.1.output.length, r.2.output.length,
          r.1.histogram_features.length)) = some (0, 1, 0, 1, 0) := by
  rfl

/-- Witness for the amended claim C7 at the same concrete matched write. -/
theorem C7_stoplist_write_witness :
    (fr_write ⟨"url", 100, 100, ⟨false, false, false, false⟩⟩ ⟨false, false⟩
      (some (fun fe _ => decide (fe = [115, 112, 97, 109]))) (fun l => l)
      ⟨"url_stopped", 100, 100, ⟨false, false, false, true⟩⟩
      ⟨0, [], []⟩ ⟨0, [], []⟩ ⟨"", 0⟩ [115, 112, 97, 109] [99]).isOk = true := by
  exact (C7_stoplist_write ⟨"url", 100, 100, ⟨false, false, false, false⟩⟩
    ⟨"url_stopped", 100, 100, ⟨false, false, false, true⟩⟩ ⟨false, false⟩
    (fun fe _ => decide (fe = [115, 112, 97, 109])) (fun l => l)
    ⟨0, [], []⟩ ⟨0, [], []⟩ ⟨"", 0⟩ [115, 112, 97, 109] [99]
    rfl rfl rfl (by decide) (by decide) (by decide) (by decide)).1


/- Shape of one carve step. -/

theorem carve_body_hit (recname outdir hasher : String) (st : carve_state)
    (hd dt : carve_input) (ext : String) (hin : dt.hashv ∈ st.carve_cache) :
    carve_body recname outdir hasher st hd dt ext =
      ({ st with
         features := st.features ++
           [(dt.pos0_str, CACHED,
             carve_xml none (hd.bufsize + dt.bufsize) hasher dt.hashv)] },
       CACHED) := by
  unfold carve_body check_for_presence_and_insert
  simp [hin]

theorem carve_body_miss (recname outdir hasher : String) (st : carve_state)
    (hd dt : carve_input) (ext : String) (hnot : dt.hashv ∉ st.carve_cache) :
    carve_body recname outdir hasher st hd dt ext =
      ({ carve_cache := st.carve_cache ++ [dt.hashv],
         carved_file_count := st.carved_file_count + 1,
         files := st.files ++
           [(outdir ++ "/" ++ recname ++ "/" ++ pad3 (st.carved_file_count / 1000) ++
               "/" ++ (dt.pos0_str ++ ext), hd.bufsize + dt.bufsize)],
         features := st.features ++
           [(dt.pos0_str,
             recname ++ "/" ++ pad3 (st.carved_file_count / 1000) ++ "/" ++
               (dt.pos0_str ++ ext),
             carve_xml
               (some (recname ++ "/" ++ pad3 (st.carved_file_count / 1000) ++ "/" ++
                 (dt.pos0_str ++ ext)))
               (hd.bufsize + dt.bufsize) hasher dt.hashv)] },
       recname ++ "/" ++ pad3 (st.carved_file_count / 1000) ++ "/" ++
         (dt.pos0_str ++ ext)) := by
  unfold carve_body check_for_presence_and_insert
  simp [hnot]

/- CARVE_ALL reduces to the carving branch. -/
theorem carve_all_eq (dnc recname outdir hasher : String) (st : carve_state)
    (hd dt : carve_input) (ext : String) (mtime : Nat) :
    carve .CARVE_ALL dnc recname outdir hasher st hd dt ext mtime =
      carve_body recname outdir hasher st hd dt ext := rfl

/- A run whose hash is already cached only appends CACHED features. -/
theorem carve_run_cached (dnc recname outdir hasher : String) (h : String) :
    ∀ (cs : List carve_call) (st : carve_state), h ∈ st.carve_cache →
      (∀ x ∈ cs, x.data.hashv = h) →
      carve_run .CARVE_ALL dnc recname outdir hasher st cs =
        ({ st with
           features := st.features ++ cs.map (fun x =>
             (x.data.pos0_str, CACHED,
               carve_xml none (x.header.bufsize + x.data.bufsize) hasher h)) },
         cs.map (fun _ => CACHED)) := by
  intro cs
  induction cs with
  | nil =>
      intro st _ _
      simp [carve_run]
  | cons c cs ih =>
      intro st hin hall
      have hc : c.data.hashv = h := hall c (.head _)
      have hcs : ∀ x ∈ cs, x.data.hashv = h := fun x hx => hall x (.tail _ hx)
      have hstep := carve_body_hit recname outdir hasher st c.header c.data c.ext
        (hc ▸ hin)
      simp only [carve_run, carve_all_eq, hstep]
      rw [ih _ (by exact hin) hcs]
      simp [hc, List.append_assoc]

/-- Claim C6: for a sequence of carve calls in CARVE_ALL mode whose data
bodies all hash to the same value h not yet in the carve cache, exactly one
output file is created: the first call takes the next sequence number,
appends one file and records its relative path with a filename element in
the XML context, and every later call writes no file and records the path
CACHED with the filename element omitted; when h is already cached no file
at all is written.  The first conjunct states the at-most-one bound for any
starting cache. -/
theorem C6_carve_at_most_once (dnc recname outdir hasher : String)
    (st : carve_state) (h : String) (c : carve_call) (cs : List carve_call)
    (hall : ∀ x ∈ c :: cs, x.data.hashv = h) :
    ((carve_run .CARVE_ALL dnc recname outdir hasher st (c :: cs)).1.files.length ≤
      st.files.length + 1) ∧
    (h ∉ st.carve_cache →
      carve_run .CARVE_ALL dnc recname outdir hasher st (c :: cs) =
        ({ carve_cache := st.carve_cache ++ [h],
           carved_file_count := st.carved_file_count + 1,
           files := st.files ++
             [(outdir ++ "/" ++ recname ++ "/" ++
                 pad3 (st.carved_file_count / 1000) ++ "/" ++
                 (c.data.pos0_str ++ c.ext), c.header.bufsize + c.data.bufsize)],
           features := st.features ++
             ((c.data.pos0_str,
               recname ++ "/" ++ pad3 (st.carved_file_count / 1000) ++ "/" ++
                 (c.data.pos0_str ++ c.ext),
               carve_xml
                 (some (recname ++ "/" ++ pad3 (st.carved_file_count / 1000) ++
                   "/" ++ (c.data.pos0_str ++ c.ext)))
                 (c.header.bufsize + c.data.bufsize) hasher h) ::
              cs.map (fun x =>
                (x.data.pos0_str, CACHED,
                  carve_xml none (x.header.bufsize + x.data.bufsize) hasher h))) },
         (recname ++ "/" ++ pad3 (st.carved_file_count / 1000) ++ "/" ++
           (c.data.pos0_str ++ c.ext)) :: cs.map (fun _ => CACHED))) ∧
    (h ∈ st.carve_cache →
      (carve_run .CARVE_ALL dnc recname outdir hasher st (c :: cs)).1.files =
        st.files ∧
      ∀ rel ∈ (carve_run .CARVE_ALL dnc recname outdir hasher st (c :: cs)).2,
        rel = CACHED) := by
  have hc : c.data.hashv = h := hall c (.head _)
  have hcs : ∀ x ∈ cs, x.data.hashv = h := fun x hx => hall x (.tail _ hx)
  refine ⟨?_, ?_, ?_⟩
  · by_cases hnew : h ∈ st.carve_cache
    · rw [carve_run_cached dnc recname outdir hasher h (c :: cs) st hnew hall]
      simp
    · have hstep := carve_body_miss recname outdir hasher st c.header c.data c.ext
        (by rw [hc]; exact hnew)
      simp only [carve_run, carve_all_eq, hstep]
      rw [carve_run_cached dnc recname outdir hasher h cs _ (by simp [hc]) hcs]
      simp
  · intro hnew
    have hstep := carve_body_miss recname outdir hasher st c.header c.data c.ext
      (by rw [hc]; exact hnew)
    simp only [carve_run, carve_all_eq, hstep]
    rw [carve_run_cached dnc recname outdir hasher h cs _ (by simp [hc]) hcs]
    simp [hc, List.append_assoc]
  · intro hold
    rw [carve_run_cached dnc recname outdir hasher h (c :: cs) st hold hall]
    constructor
    · rfl
    · intro rel hrel
      simp at hrel
      rcases hrel with hrel | ⟨_, hrel⟩ <;> exact hrel

/-- Witness for claim C6: two carves of the same content at a fresh cache
produce one file path and then CACHED. -/
theorem C6_carve_at_most_once_witness :
    (carve_run .CARVE_ALL "" "url" "out" "sha1" ⟨[], 0, [], []⟩
      [⟨⟨"", "", "H", 3, "x"⟩, ⟨"p", "ZIP", "A", 5, "abc"⟩, ".jpg", 0⟩,
       ⟨⟨"", "", "H2", 2, "y"⟩, ⟨"q", "GZIP", "B", 7, "abc"⟩, ".jpg", 0⟩]).2 =
      ["url/000/A.jpg", CACHED] ∧
    (carve_run .CARVE_ALL "" "url" "out" "sha1" ⟨[], 0, [], []⟩
      [⟨⟨"", "", "H", 3, "x"⟩, ⟨"p", "ZIP", "A", 5, "abc"⟩, ".jpg", 0⟩,
       ⟨⟨"", "", "H2", 2, "y"⟩,
         ⟨"q", "GZIP", "B", 7, "abc"⟩, ".jpg", 0⟩]).1.files.length = 1 := by
  have hmain := C6_carve_at_most_once "" "url" "out" "sha1" ⟨[], 0, [], []⟩ "abc"
    ⟨⟨"", "", "H", 3, "x"⟩, ⟨"p", "ZIP", "A", 5, "abc"⟩, ".jpg", 0⟩
    [⟨⟨"", "", "H2", 2, "y"⟩, ⟨"q", "GZIP", "B", 7, "abc"⟩, ".jpg", 0⟩]
    (by decide)
  have heq := hmain.2.1 (by decide)
  rw [heq]
  constructor
  · rfl
  · rfl

end BE13
